import Mathlib

/-!
# Store-rating portal: the routes of `server/src/routes`

A shallow embedding of the two rating handlers of `ratings.js`,
`router.post('/')` and `router.put('/:storeId')`, over an explicit database
state, followed by the handlers of `stores.js`, `users.js` and `auth.js` over
the database extended with the `Users` table.

Modelling conventions
* The database is a pair of tables (lists of rows). A handler maps the
  committed database and a request to an `Outcome`: the committed database
  afterwards, the HTTP status, the `message` of the JSON reply and whether
  `sequelize.transaction()` returned a transaction.
* Every awaited database call can throw; which ones do is given by an oracle
  `fails : Call → Bool`. Writes made with `{ transaction }` act on a working
  copy that becomes the committed database only at `transaction.commit()`.
* The `rating` of a body is any JSON value: a number (a rational), a string,
  an array, or another value. The validation library turns a value into a string
  and runs `isInt` on it, once per element when the value is an array.
  Identifiers are strings compared by equality. Surrogate keys and timestamps
  of rating rows are not part of the state.
* An aggregate is stored as the decimal the database makes of the mean: the
  rounding is the parameter `Numeric` of the handlers, monotone and exact on
  integers and halves; `decimal16` is the sixteen-digit decimal of `AVG`.
* `isUUID` belongs to the validation library and is a parameter; so are, for
  the other routes, `isEmail`, the SQL operator `ILIKE`, `bcrypt` and `jwt`.
* The regular expression of the password validator is embedded with the
  meaning of its dialect: `.` matches every character but a line terminator.
-/

namespace StoreRating

/-! ## Data model -/

/-- Modelled from the spec: `models/Store.js` is not among the sources. The
columns are those written by `Store.create` in `routes/stores.js` plus the
nullable decimal `averageRating` of the spec (§3), held as the rational the
stored decimal denotes. -/
structure Store where
  id : String
  name : String
  email : String
  address : String
  ownerId : String
  averageRating : Option ℚ
deriving DecidableEq

/-- Modelled from the spec: `models/Rating.js` is not among the sources. A row
carries the three columns the handlers read and write (§3 RatingRecord). -/
structure Rating where
  userId : String
  storeId : String
  rating : Int
deriving DecidableEq

/-- The committed contents of the two tables. -/
structure Db where
  stores : List Store
  ratings : List Rating
deriving DecidableEq

/-- A JSON value that is not an array: a number, a string, or any other value
(null, a boolean, an object, an array nested in an array), given by the string
the validation library makes of it before it runs a validator. -/
inductive Scalar where
  | number (q : ℚ)
  | string (s : String)
  | other (printed : String)

/-- A JSON value as a body field holds it. -/
inductive Json where
  | scalar (v : Scalar)
  | array (items : List Scalar)

/-- A numeral stands for the JSON number. -/
instance (n : Nat) : OfNat Json n := ⟨.scalar (.number n)⟩

/-- The JSON body of a request: the two fields the handlers destructure and
whatever else the client sent. `rating` is whatever JSON value the client put
there. -/
structure Body where
  storeId : Option String
  rating : Option Json
  others : List (String × String)

/-- A request that passed the `auth` middleware: `user` is `req.user.id`,
`paramStoreId` is `req.params.storeId` (read by the PUT route only). -/
structure Request where
  user : String
  paramStoreId : String
  body : Body

/-- The awaited database calls of the two handlers. -/
inductive Call where
  | storeFindByPk
  | transaction
  | ratingFindOrCreate
  | ratingFindOne
  | ratingUpdate
  | avgQuery
  | storeUpdate
  | commit
  | rollback
deriving DecidableEq

/-- The oracle under which no database call throws. -/
def noFault : Call → Bool := fun _ => false

/-- What a handler leaves behind. -/
structure Outcome where
  db : Db
  status : Nat
  message : Option String
  txOpened : Bool
deriving DecidableEq

/-! ## Validators -/

/-- The chain `body('storeId').isUUID()`: a missing field fails. -/
def bodyIsUUID (isUUID : String → Bool) (v : Option String) : Bool :=
  match v with
  | none => false
  | some s => isUUID s

/-- The integer a string spells for the validator `isInt`, whose pattern is
`^[-+]?[0-9]+$`: an optional sign and one or more decimal digits. -/
def intLiteral (s : String) : Option Int :=
  let digits : List Char → Option Int := fun ds =>
    if ds ≠ [] ∧ ds.all Char.isDigit = true then
      some (ds.foldl (fun acc c => acc * 10 + ((c.toNat - 48 : Nat) : Int)) 0)
    else none
  match s.toList with
  | '-' :: ds => (digits ds).map (fun n => -n)
  | '+' :: ds => digits ds
  | ds => digits ds

/-- The validator `isInt({ min, max })` on one value: a number passes when it
prints as an integer within the bounds, a string (or the string made of any
other value) when it spells one. -/
def scalarIsInt (min max : Int) (v : Scalar) : Bool :=
  match v with
  | .number q => q.isInt && decide (min ≤ q.num) && decide (q.num ≤ max)
  | .string s =>
    match intLiteral s with
    | some n => decide (min ≤ n) && decide (n ≤ max)
    | none => false
  | .other s =>
    match intLiteral s with
    | some n => decide (min ≤ n) && decide (n ≤ max)
    | none => false

/-- The chain `body('rating').isInt({ min, max })`: a missing field fails; the
validation library runs the validator on every element of an array, so an
array passes when all its elements do, and the empty array passes. -/
def isInt (min max : Int) (v : Option Json) : Bool :=
  match v with
  | none => false
  | some (.scalar x) => scalarIsInt min max x
  | some (.array items) => items.all (scalarIsInt min max)

/-- Modelled from the spec: `models/Rating.js` is not among the sources; `rating`
is an integer column (§3). The integer the column receives when the handler
writes a JSON value to it: an integral number, or a string that spells an
integer; `none` when the write throws, as it does for any other value and for
an array. -/
def columnValue (v : Json) : Option Int :=
  match v with
  | .scalar (.number q) => if q.isInt then some q.num else none
  | .scalar (.string s) => intLiteral s
  | .scalar (.other _) => none
  | .array _ => none

/-- The integer stored for a JSON value (0 for a value that cannot be stored). -/
def Json.num (v : Json) : Int := (columnValue v).getD 0

/-- The fields whose validation chain failed, as `validationResult(req)`. -/
def validationResult (checks : List (String × Bool)) : List String :=
  (checks.filter (fun c => !c.2)).map (fun c => c.1)

/-- A concrete shape test for identifiers, 8-4-4-4-12 hexadecimal digits, used
to instantiate the `isUUID` parameter on examples. -/
def uuidShape (s : String) : Bool :=
  let hex : Char → Bool := fun c =>
    c.isDigit || (decide ('a' ≤ c) && decide (c ≤ 'f')) || (decide ('A' ≤ c) && decide (c ≤ 'F'))
  let groups := s.toList.splitOn '-'
  decide (groups.map List.length = [8, 4, 4, 4, 12]) && groups.all (fun g => g.all hex)

/-! ## Queries -/

/-- `Store.findByPk(id)`. -/
def Store.findByPk (stores : List Store) (id : String) : Option Store :=
  stores.find? (fun s => decide (s.id = id))

/-- `Rating.findOne({ where: { userId, storeId } })`. -/
def Rating.findOne (rows : List Rating) (userId storeId : String) : Option Rating :=
  rows.find? (fun r => decide (r.userId = userId) && decide (r.storeId = storeId))

/-- `Rating.findOrCreate({ where: { userId, storeId }, defaults: { rating } })`:
the table afterwards, the instance, and the `created` flag. -/
def Rating.findOrCreate (rows : List Rating) (userId storeId : String) (rating : Int) :
    List Rating × Rating × Bool :=
  match Rating.findOne rows userId storeId with
  | some r => (rows, r, false)
  | none => (rows ++ [⟨userId, storeId, rating⟩], ⟨userId, storeId, rating⟩, true)

/-- `userRating.update({ rating })`: rewrites the row the instance was loaded
from, which is the first row of its `(userId, storeId)` pair. -/
def Rating.update (rows : List Rating) (userRating : Rating) (rating : Int) : List Rating :=
  match rows with
  | [] => []
  | r :: rest =>
    if r.userId = userRating.userId ∧ r.storeId = userRating.storeId then
      { r with rating := rating } :: rest
    else r :: Rating.update rest userRating rating

/-- Modelled from the spec: `models/Store.js` and the database configuration are
not among the sources; `averageRating` is a nullable decimal (§3). The value
the database holds for a mean: SQL `AVG` over an integer column returns a
decimal rounded to a fixed number of places, and the column it is then written
to may round it again. `round` is that representation of a rational, taken as a
parameter: it is monotone and exact on the integers and the halves, which a
decimal column with a fractional digit and a binary floating-point column both
hold exactly for the integers a rating column can carry. -/
structure Numeric where
  round : ℚ → ℚ
  mono : ∀ a b : ℚ, a ≤ b → round a ≤ round b
  half : ∀ n : Int, round ((n : ℚ) / 2) = (n : ℚ) / 2

/-- A rational as a decimal with `places` fractional digits, rounded half away
from zero. -/
def roundPlaces (places : Nat) (q : ℚ) : ℚ :=
  if 0 ≤ q then (⌊q * 10 ^ places + 1 / 2⌋ : ℚ) / 10 ^ places
  else -((⌊-q * 10 ^ places + 1 / 2⌋ : ℚ) / 10 ^ places)

/-- The decimal PostgreSQL returns for the `AVG` of a column of one-digit
integers, sixteen fractional digits, kept as it is by the column. -/
def decimal16 : Numeric where
  round := roundPlaces 16
  mono := by
    intro a b hab
    have hp : (0 : ℚ) < 10 ^ 16 := by positivity
    have hnn : ∀ x : ℚ, 0 ≤ x → (0 : ℚ) ≤ ((⌊x * 10 ^ 16 + 1 / 2⌋ : Int) : ℚ) / 10 ^ 16 := by
      intro x hx
      apply div_nonneg _ hp.le
      have : (0 : Int) ≤ ⌊x * 10 ^ 16 + 1 / 2⌋ := Int.floor_nonneg.mpr (by positivity)
      exact_mod_cast this
    have hmono : ∀ x y : ℚ, x ≤ y →
        ((⌊x * 10 ^ 16 + 1 / 2⌋ : Int) : ℚ) / 10 ^ 16 ≤
          ((⌊y * 10 ^ 16 + 1 / 2⌋ : Int) : ℚ) / 10 ^ 16 := by
      intro x y hxy
      apply div_le_div_of_nonneg_right _ hp.le
      have : ⌊x * 10 ^ 16 + 1 / 2⌋ ≤ ⌊y * 10 ^ 16 + 1 / 2⌋ :=
        Int.floor_mono (by nlinarith)
      exact_mod_cast this
    unfold roundPlaces
    split_ifs with ha hb hb
    · exact hmono a b hab
    · exact absurd (le_trans ha hab) hb
    · have h1 := hnn (-a) (by linarith)
      have h2 := hnn b hb
      linarith
    · have := hmono (-b) (-a) (by linarith)
      linarith
  half := by
    intro n
    have hfl : ∀ m : Int, ⌊((m : ℚ) / 2) * 10 ^ 16 + 1 / 2⌋ = m * 5000000000000000 := by
      intro m
      rw [Int.floor_eq_iff]
      push_cast
      constructor <;> linarith
    unfold roundPlaces
    split_ifs with h
    · rw [hfl n]; push_cast; field_simp; ring
    · have : -((n : ℚ) / 2) = ((-n : Int) : ℚ) / 2 := by push_cast; ring
      rw [this, hfl (-n)]; push_cast; field_simp; ring

/-- SQL `AVG` over a column of integers: `NULL` on no rows, otherwise the
quotient of sum and count as the database represents it. -/
def AVG (num : Numeric) (col : List Int) : Option ℚ :=
  match col with
  | [] => none
  | _ :: _ => some (num.round ((col.sum : ℚ) / (col.length : ℚ)))

/-- The rows `where: { storeId }`. -/
def ratingsOf (rows : List Rating) (storeId : String) : List Rating :=
  rows.filter (fun r => decide (r.storeId = storeId))

/-- `Rating.findOne({ where: { storeId }, attributes: [[AVG(rating), 'average']] })`
followed by `getDataValue('average')`. -/
def average (num : Numeric) (rows : List Rating) (storeId : String) : Option ℚ :=
  AVG num ((ratingsOf rows storeId).map (fun r => r.rating))

/-- `Store.update({ averageRating }, { where: { id } })`; the instance method
`store.update({ averageRating })` is the same statement with `id = store.id`. -/
def Store.update (stores : List Store) (id : String) (averageRating : Option ℚ) : List Store :=
  stores.map (fun s => if s.id = id then { s with averageRating := averageRating } else s)

/-! ## Handlers -/

/-- The reply of the outer `catch`. -/
def serverError (db : Db) (txOpened : Bool) : Outcome :=
  ⟨db, 500, some "Server error", txOpened⟩

/-- The inner `try` block of `router.post('/')` on the working copy `w`:
`none` when a call throws, otherwise the working copy after `commit`. -/
def postTransaction (num : Numeric) (fails : Call → Bool) (w : Db) (store : Store)
    (userId storeId : String) (rating : Json) : Option Db :=
  if fails .ratingFindOrCreate then none else
  match columnValue rating with
  | none => none
  | some rating =>
  let (rows, userRating, created) := Rating.findOrCreate w.ratings userId storeId rating
  if !created && fails .ratingUpdate then none else
  let rows := if !created then Rating.update rows userRating rating else rows
  if fails .avgQuery then none else
  let averageRating := average num rows storeId
  if fails .storeUpdate then none else
  let stores := Store.update w.stores store.id averageRating
  if fails .commit then none else
  some ⟨stores, rows⟩

/-- The handler `router.post('/')`. -/
def postRating (num : Numeric) (isUUID : String → Bool) (fails : Call → Bool) (db : Db)
    (req : Request) :
    Outcome :=
  let errors := validationResult
    [("storeId", bodyIsUUID isUUID req.body.storeId), ("rating", isInt 1 5 req.body.rating)]
  if !errors.isEmpty then ⟨db, 400, none, false⟩ else
  let storeId := req.body.storeId.getD ""
  let rating := req.body.rating.getD 0
  let userId := req.user
  if fails .storeFindByPk then serverError db false else
  match Store.findByPk db.stores storeId with
  | none => ⟨db, 404, some "Store not found", false⟩
  | some store =>
    if fails .transaction then serverError db false else
    match postTransaction num fails db store userId storeId rating with
    | some w => ⟨w, 200, some "Rating submitted successfully", true⟩
    | none => serverError db true

/-- The handler `router.put('/:storeId')`. -/
def putRating (num : Numeric) (fails : Call → Bool) (db : Db) (req : Request) : Outcome :=
  let errors := validationResult [("rating", isInt 1 5 req.body.rating)]
  if !errors.isEmpty then ⟨db, 400, none, false⟩ else
  let storeId := req.paramStoreId
  let rating := req.body.rating.getD 0
  let userId := req.user
  if fails .transaction then serverError db false else
  if fails .ratingFindOne then serverError db true else
  match Rating.findOne db.ratings userId storeId with
  | none =>
    if fails .rollback then serverError db true
    else ⟨db, 404, some "Rating not found", true⟩
  | some userRating =>
    if fails .ratingUpdate then serverError db true else
    match columnValue rating with
    | none => serverError db true
    | some rating =>
    let rows := Rating.update db.ratings userRating rating
    if fails .avgQuery then serverError db true else
    let averageRating := average num rows storeId
    if fails .storeUpdate then serverError db true else
    let stores := Store.update db.stores storeId averageRating
    if fails .commit then serverError db true else
    ⟨⟨stores, rows⟩, 200, some "Rating updated successfully", true⟩

/-- The two routes mounted on `/api/ratings`. -/
inductive Route where
  | post
  | put
deriving DecidableEq

/-- Dispatch of a request on `/api/ratings`. -/
def handle (num : Numeric) (isUUID : String → Bool) (route : Route) (fails : Call → Bool)
    (db : Db)
    (req : Request) : Outcome :=
  match route with
  | .post => postRating num isUUID fails db req
  | .put => putRating num fails db req

/-- The store a request on `route` addresses. -/
def targetStore (route : Route) (req : Request) : String :=
  match route with
  | .post => req.body.storeId.getD ""
  | .put => req.paramStoreId

/-- The committed database after a sequence of requests, served one by one. -/
def run (num : Numeric) (isUUID : String → Bool) (db : Db)
    (reqs : List (Route × (Call → Bool) × Request)) : Db :=
  reqs.foldl (fun d x => (handle num isUUID x.1 x.2.1 d x.2.2).db) db

/-! ## Specification vocabulary -/

/-- The arithmetic mean of a collection of ratings, null when it is empty. -/
def arithmeticMean (xs : List Int) : Option ℚ :=
  if xs.length = 0 then none else some ((xs.sum : ℚ) / (xs.length : ℚ))

/-- The aggregate invariant (spec §3): every store row carries the mean of the
rating rows that reference it, or null when there are none. -/
def MeanInvariant (db : Db) : Prop :=
  ∀ s ∈ db.stores,
    s.averageRating =
      arithmeticMean ((db.ratings.filter (fun r => decide (r.storeId = s.id))).map
        (fun r => r.rating))

/-- The aggregate invariant as the database keeps it: every store row carries
the mean of the rating rows that reference it in the representation `num` of
the database, or null when there are none. -/
def StoredMeanInvariant (num : Numeric) (db : Db) : Prop :=
  ∀ s ∈ db.stores,
    s.averageRating =
      (arithmeticMean ((db.ratings.filter (fun r => decide (r.storeId = s.id))).map
        (fun r => r.rating))).map num.round

/-- The uniqueness invariant (spec §3): at most one rating row per
`(userId, storeId)` pair. -/
def UniquePairs (rows : List Rating) : Prop :=
  ∀ u s : String,
    (rows.filter (fun r => decide (r.userId = u) && decide (r.storeId = s))).length ≤ 1

/-- Insert-or-overwrite of the row of `(userId, storeId)`, by recursion on the
table: the first row of the pair gets the rating, a missing one is appended. -/
def upsert (rows : List Rating) (userId storeId : String) (rating : Int) : List Rating :=
  match rows with
  | [] => [⟨userId, storeId, rating⟩]
  | r :: rest =>
    if r.userId = userId ∧ r.storeId = storeId then { r with rating := rating } :: rest
    else r :: upsert rest userId storeId rating

/-- The database a committed rating leaves: the row upserted and the aggregate
of the addressed store recomputed. -/
def committed (num : Numeric) (db : Db) (userId storeId : String) (rating : Int) : Db :=
  let rows := upsert db.ratings userId storeId rating
  ⟨Store.update db.stores storeId (average num rows storeId), rows⟩

/-- Some call inside the `try` block of the POST transaction throws: the
upsert (`findOrCreate`, or the `update` that follows a found row; either by
the oracle or because the rating cannot be stored), the `AVG` query, the write
of `averageRating`, or the commit. -/
def postThrows (fails : Call → Bool) (db : Db) (req : Request) : Bool :=
  fails .ratingFindOrCreate || (columnValue (req.body.rating.getD 0)).isNone ||
    ((Rating.findOne db.ratings req.user (req.body.storeId.getD "")).isSome &&
      fails .ratingUpdate) ||
    fails .avgQuery || fails .storeUpdate || fails .commit

/-- Some call inside the `try` block of the PUT transaction throws. -/
def putThrows (fails : Call → Bool) (db : Db) (req : Request) : Bool :=
  fails .ratingFindOne ||
    (if (Rating.findOne db.ratings req.user req.paramStoreId).isSome then
      fails .ratingUpdate || (columnValue (req.body.rating.getD 0)).isNone ||
        fails .avgQuery || fails .storeUpdate || fails .commit
    else fails .rollback)

/-- Some call of the transaction of `route` throws. -/
def txThrows (route : Route) (fails : Call → Bool) (db : Db) (req : Request) : Bool :=
  match route with
  | .post => postThrows fails db req
  | .put => putThrows fails db req

/-- The stored aggregate of the store `id`, if there is such a store. -/
def aggregateOf (db : Db) (id : String) : Option (Option ℚ) :=
  (Store.findByPk db.stores id).map (fun s => s.averageRating)

/-- A request by `user` for store `storeId` with an integer `rating`, carrying
the store both in the path and in the body so that it fits either route. -/
def ratingRequest (user storeId : String) (rating : Int) : Request :=
  ⟨user, storeId, ⟨some storeId, some (.scalar (.number (rating : ℚ))), []⟩⟩

/-- The incremental `(old_sum, count)` update of a mean that the spec allows
in place of a fresh aggregate query (§9): a first rating adds its value to the
sum and one to the count, a changed rating replaces the old value in the sum
and keeps the count. -/
def incrementalMean (oldSum : Int) (count : Nat) (oldRating : Option Int) (rating : Int) : ℚ :=
  match oldRating with
  | none => ((oldSum + rating : Int) : ℚ) / ((count + 1 : Nat) : ℚ)
  | some old => ((oldSum - old + rating : Int) : ℚ) / (count : ℚ)

/-! ## The other routes: data and validators (`routes/stores.js`, `users.js`, `auth.js`) -/

/-- The `User` model (`models/User.js`); `password` holds the bcrypt hash. -/
structure User where
  id : String
  name : String
  email : String
  password : String
  address : String
  role : String
deriving DecidableEq

/-- The whole database: the `Users` table beside the two tables of `Db`. -/
structure Portal where
  users : List User
  db : Db
deriving DecidableEq

/-- The library functions the routes call: the validators `isUUID` and
`isEmail`, the SQL operator `ILIKE` (value, pattern), `bcrypt.hash(·, 10)`,
`bcrypt.compare` (plain text, hash) and `jwt.sign` of an id. -/
structure Env where
  isUUID : String → Bool
  isEmail : String → Bool
  iLike : String → String → Bool
  hash : String → String
  compare : String → String → Bool
  sign : String → String

/-- The named string fields of a JSON body or of a query string. -/
structure Fields where
  name : Option String
  email : Option String
  password : Option String
  address : Option String
  role : Option String
  ownerId : Option String
  currentPassword : Option String
  newPassword : Option String

/-- A body or query without fields. -/
def noFields : Fields := ⟨none, none, none, none, none, none, none, none⟩

/-- A request to one of the other routes: `user` is the instance `req.user`
that `auth` loaded (unused by signup and login), `id` is `req.params.id`. The
handlers below are entered after `auth` and `checkRole` let the request pass. -/
structure Req where
  user : User
  id : String
  body : Fields
  query : Fields

/-- The awaited calls of the other routes. -/
inductive Await where
  | userFindByPk
  | userFindOne
  | userFindAll
  | userCount
  | userCreate
  | userUpdate
  | storeFindByPk
  | storeFindAll
  | storeCount
  | storeCreate
  | ratingFindAll
  | ratingCount
  | bcryptHash
  | bcryptCompare
  | jwtSign
deriving DecidableEq

/-- The oracle under which no awaited call throws. -/
def quiet : Await → Bool := fun _ => false

/-- A user as `GET /api/users` returns it: the five listed attributes and the
`averageRating` of the included `ownedStore`, if the user owns a store. -/
structure UserView where
  id : String
  name : String
  email : String
  address : String
  role : String
  ownedStore : Option (Option ℚ)
deriving DecidableEq

/-- The JSON document of a reply. -/
inductive Payload where
  | errors (fields : List String)
  | message (text : String)
  | token (jwt : String)
  | store (row : Store)
  | user (row : User)
  | stores (rows : List (Store × List Int))
  | ratings (rows : List (Rating × Option (String × String)))
  | users (rows : List UserView)
  | stats (totalUsers totalStores totalRatings : Nat)
deriving DecidableEq

/-- What a handler of the other routes leaves behind. -/
structure Reply where
  portal : Portal
  status : Nat
  payload : Payload
deriving DecidableEq

/-- The chain `.isLength({ min, max })`; a missing field is validated as the
empty string, characters are counted as code points. -/
def isLength (min : Nat) (max : Option Nat) (v : Option String) : Bool :=
  let len := (v.getD "").length
  decide (min ≤ len) && (match max with
    | none => true
    | some m => decide (len ≤ m))

/-- The chain `.isEmail()`: a missing field fails. -/
def bodyIsEmail (isEmail : String → Bool) (v : Option String) : Bool :=
  match v with
  | none => false
  | some s => isEmail s

/-- The chain `.isIn(values)`: a missing field fails. -/
def isIn (values : List String) (v : Option String) : Bool :=
  match v with
  | none => false
  | some s => values.contains s

/-- The chain `.exists()`: the field is not `undefined`. -/
def fieldExists (v : Option String) : Bool := v.isSome

/-- Truthiness of a query parameter, as in `if (name)`. -/
def truthy (v : Option String) : Bool :=
  match v with
  | none => false
  | some s => decide (s ≠ "")

/-- The characters the `.` of a regular expression does not match. -/
def lineTerminator (c : Char) : Bool :=
  decide (c = '\n') || decide (c = '\r') || decide (c.val = 0x2028) || decide (c.val = 0x2029)

/-- The character class `[A-Z]`. -/
def upperCase (c : Char) : Bool := decide ('A' ≤ c) && decide (c ≤ 'Z')

/-- The character class `[!@#$%^&*]`. -/
def specialChar (c : Char) : Bool := ['!', '@', '#', '$', '%', '^', '&', '*'].contains c

/-- The lookahead `(?=.*[cls])` anchored at the start of the input: after any
number of characters that `.` matches comes a character of the class. -/
def dotStarThen (cls : Char → Bool) (input : List Char) : Bool :=
  match input with
  | [] => false
  | c :: rest => cls c || (!lineTerminator c && dotStarThen cls rest)

/-- The chain `.matches(/^(?=.*[A-Z])(?=.*[!@#$%^&*])/)`. -/
def matchesPasswordPattern (s : String) : Bool :=
  dotStarThen upperCase s.toList && dotStarThen specialChar s.toList

/-- The validator `validatePassword` of `auth.js`, the same chain as
`body('password')` in `users.js`: `isLength({ min: 8, max: 16 })` and the
pattern, both on the field (the empty string when it is missing). -/
def validatePassword (v : Option String) : Bool :=
  isLength 8 (some 16) v && matchesPasswordPattern (v.getD "")

/-- The length of a string in UTF-16 code units, the `length` that the
client-side schema compares. -/
def utf16Length (s : String) : Nat :=
  (s.toList.map (fun c => if c.val < 0x10000 then 1 else 2)).sum

/-- The client-side password schema (`Register.js`, `Layout.js`): `min(8)`,
`max(16)`, `matches(/[A-Z]/)`, `matches(/[!@#$%^&*]/)`. -/
def clientPasswordSchema (s : String) : Bool :=
  decide (8 ≤ utf16Length s) && decide (utf16Length s ≤ 16) &&
    s.toList.any upperCase && s.toList.any specialChar

/-- The password rule in the words of the spec: 8 to 16 characters, at least
one uppercase letter A-Z and at least one special character of `!@#$%^&*`. -/
def PasswordRule (s : String) : Prop :=
  8 ≤ s.length ∧ s.length ≤ 16 ∧ (∃ c ∈ s.toList, upperCase c = true) ∧
    (∃ c ∈ s.toList, specialChar c = true)

/-! ## The other routes: queries and handlers -/

/-- `User.findByPk(id)`. -/
def User.findByPk (users : List User) (id : String) : Option User :=
  users.find? (fun u => decide (u.id = id))

/-- `User.findOne({ where: { email } })`. -/
def User.findOne (users : List User) (email : String) : Option User :=
  users.find? (fun u => decide (u.email = email))

/-- `User.create(values)` under the constraints of `models/User.js`: `name` of
20 to 60 characters, `email` an e-mail address not yet in the table, `address`
of 1 to 400 characters, `role` one of the enumeration. `none` when the call
throws. -/
def User.create (isEmail : String → Bool) (users : List User) (u : User) :
    Option (List User) :=
  if 20 ≤ u.name.length ∧ u.name.length ≤ 60 ∧ isEmail u.email = true ∧
      1 ≤ u.address.length ∧ u.address.length ≤ 400 ∧
      u.role ∈ ["ADMIN", "USER", "STORE_OWNER"] ∧ User.findOne users u.email = none then
    some (users ++ [u])
  else none

/-- `user.update({ password })`: rewrites the column of the row of the instance. -/
def User.update (users : List User) (id : String) (password : String) : List User :=
  users.map (fun u => if u.id = id then { u with password := password } else u)

/-- The reply of the `catch` block of every handler. -/
def serverFault (p : Portal) : Reply := ⟨p, 500, .message "Server error"⟩

/-- The validation chains of `POST /api/stores`. -/
def createStoreErrors (env : Env) (req : Req) : List String :=
  validationResult
    [("name", isLength 1 (some 100) req.body.name),
     ("email", bodyIsEmail env.isEmail req.body.email),
     ("address", isLength 0 (some 400) req.body.address),
     ("ownerId", bodyIsUUID env.isUUID req.body.ownerId)]

/-- The handler of `POST /api/stores`. `Store.create` receives `name`, `email`,
`address` and `ownerId`; `newId` is the generated key, and `averageRating`
takes the default of the model, null (spec §3: no ratings yet). A missing
`address` passes `isLength({ max: 400 })` and is kept as the empty string. -/
def createStore (env : Env) (fails : Await → Bool) (newId : String) (p : Portal) (req : Req) :
    Reply :=
  let errors := createStoreErrors env req
  if !errors.isEmpty then ⟨p, 400, .errors errors⟩ else
  let name := req.body.name.getD ""
  let email := req.body.email.getD ""
  let address := req.body.address.getD ""
  let ownerId := req.body.ownerId.getD ""
  if fails .userFindByPk then serverFault p else
  match User.findByPk p.users ownerId with
  | none => ⟨p, 400, .message "Invalid store owner"⟩
  | some owner =>
    if owner.role ≠ "STORE_OWNER" then ⟨p, 400, .message "Invalid store owner"⟩ else
    if fails .storeCreate then serverFault p else
    let store : Store := ⟨newId, name, email, address, ownerId, none⟩
    ⟨{ p with db := { p.db with stores := p.db.stores ++ [store] } }, 201, .store store⟩

/-- The `where` clause that `GET /api/stores` builds from the query string. -/
def storeWhere (env : Env) (query : Fields) (s : Store) : Bool :=
  (if truthy query.name then env.iLike s.name ("%" ++ query.name.getD "" ++ "%") else true) &&
    (if truthy query.address then env.iLike s.address ("%" ++ query.address.getD "" ++ "%")
      else true)

/-- The handler of `GET /api/stores`: `Store.findAll` with the `Rating` rows of
the caller included (`required: false`, attribute `rating`). -/
def listStores (env : Env) (fails : Await → Bool) (p : Portal) (req : Req) : Reply :=
  if fails .storeFindAll then serverFault p else
  ⟨p, 200, .stores ((p.db.stores.filter (storeWhere env req.query)).map (fun s =>
    (s, (p.db.ratings.filter
      (fun r => decide (r.storeId = s.id) && decide (r.userId = req.user.id))).map
        (fun r => r.rating))))⟩

/-- The handler of `GET /api/stores/:id/ratings`: `Rating.findAll` of the store
with the `name` and `email` of the `User` of each row included. -/
def listStoreRatings (fails : Await → Bool) (p : Portal) (req : Req) : Reply :=
  if fails .storeFindByPk then serverFault p else
  match Store.findByPk p.db.stores req.id with
  | none => ⟨p, 403, .message "Access denied"⟩
  | some store =>
    if store.ownerId ≠ req.user.id then ⟨p, 403, .message "Access denied"⟩ else
    if fails .ratingFindAll then serverFault p else
    ⟨p, 200, .ratings ((ratingsOf p.db.ratings req.id).map (fun r =>
      (r, (User.findByPk p.users r.userId).map (fun u => (u.name, u.email)))))⟩

/-- The handler of `POST /api/users`. -/
def createUser (env : Env) (fails : Await → Bool) (newId : String) (p : Portal) (req : Req) :
    Reply :=
  let errors := validationResult
    [("name", isLength 20 (some 60) req.body.name),
     ("email", bodyIsEmail env.isEmail req.body.email),
     ("password", validatePassword req.body.password),
     ("address", isLength 0 (some 400) req.body.address),
     ("role", isIn ["ADMIN", "USER", "STORE_OWNER"] req.body.role)]
  if !errors.isEmpty then ⟨p, 400, .errors errors⟩ else
  if fails .bcryptHash then serverFault p else
  let user : User := ⟨newId, req.body.name.getD "", req.body.email.getD "",
    env.hash (req.body.password.getD ""), req.body.address.getD "", req.body.role.getD ""⟩
  if fails .userCreate then serverFault p else
  match User.create env.isEmail p.users user with
  | none => serverFault p
  | some users => ⟨{ p with users := users }, 201, .user user⟩

/-- The `where` clause that `GET /api/users` builds from the query string. -/
def userWhere (env : Env) (query : Fields) (u : User) : Bool :=
  (if truthy query.name then env.iLike u.name ("%" ++ query.name.getD "" ++ "%") else true) &&
    (if truthy query.email then env.iLike u.email ("%" ++ query.email.getD "" ++ "%")
      else true) &&
    (if truthy query.address then env.iLike u.address ("%" ++ query.address.getD "" ++ "%")
      else true) &&
    (if truthy query.role then decide (u.role = query.role.getD "") else true)

/-- The handler of `GET /api/users`; the included `ownedStore` is the store
whose `ownerId` is the user. -/
def listUsers (env : Env) (fails : Await → Bool) (p : Portal) (req : Req) : Reply :=
  if fails .userFindAll then serverFault p else
  ⟨p, 200, .users ((p.users.filter (userWhere env req.query)).map (fun u =>
    ⟨u.id, u.name, u.email, u.address, u.role,
      (p.db.stores.find? (fun s => decide (s.ownerId = u.id))).map
        (fun s => s.averageRating)⟩))⟩

/-- The handler of `GET /api/users/stats`. -/
def userStats (fails : Await → Bool) (p : Portal) (_req : Req) : Reply :=
  if fails .userCount then serverFault p else
  if fails .storeCount then serverFault p else
  if fails .ratingCount then serverFault p else
  ⟨p, 200, .stats p.users.length p.db.stores.length p.db.ratings.length⟩

/-- The handler of `POST /api/auth/signup`. -/
def signup (env : Env) (fails : Await → Bool) (newId : String) (p : Portal) (req : Req) :
    Reply :=
  let errors := validationResult
    [("name", isLength 20 (some 60) req.body.name),
     ("email", bodyIsEmail env.isEmail req.body.email),
     ("address", isLength 0 (some 400) req.body.address),
     ("password", validatePassword req.body.password)]
  if !errors.isEmpty then ⟨p, 400, .errors errors⟩ else
  let email := req.body.email.getD ""
  if fails .userFindOne then serverFault p else
  match User.findOne p.users email with
  | some _ => ⟨p, 400, .message "Email already registered"⟩
  | none =>
    if fails .bcryptHash then serverFault p else
    let user : User := ⟨newId, req.body.name.getD "", email,
      env.hash (req.body.password.getD ""), req.body.address.getD "", "USER"⟩
    if fails .userCreate then serverFault p else
    match User.create env.isEmail p.users user with
    | none => serverFault p
    | some users =>
      if fails .jwtSign then serverFault { p with users := users } else
      ⟨{ p with users := users }, 201, .token (env.sign user.id)⟩

/-- The handler of `POST /api/auth/login`. -/
def login (env : Env) (fails : Await → Bool) (p : Portal) (req : Req) : Reply :=
  let errors := validationResult
    [("email", bodyIsEmail env.isEmail req.body.email),
     ("password", fieldExists req.body.password)]
  if !errors.isEmpty then ⟨p, 400, .errors errors⟩ else
  if fails .userFindOne then serverFault p else
  match User.findOne p.users (req.body.email.getD "") with
  | none => ⟨p, 401, .message "Invalid credentials"⟩
  | some user =>
    if fails .bcryptCompare then serverFault p else
    if !env.compare (req.body.password.getD "") user.password then
      ⟨p, 401, .message "Invalid credentials"⟩
    else if fails .jwtSign then serverFault p
    else ⟨p, 200, .token (env.sign user.id)⟩

/-- The handler of `PUT /api/auth/update-password`. The middleware
`validatePassword` has run on the field `password`; the handler never reads
`validationResult(req)`. `bcrypt` throws on an argument that is not a string. -/
def updatePassword (env : Env) (fails : Await → Bool) (p : Portal) (req : Req) : Reply :=
  let _errors := validationResult [("password", validatePassword req.body.password)]
  match req.body.currentPassword with
  | none => serverFault p
  | some currentPassword =>
    if fails .bcryptCompare then serverFault p else
    if !env.compare currentPassword req.user.password then
      ⟨p, 401, .message "Current password is incorrect"⟩
    else
    match req.body.newPassword with
    | none => serverFault p
    | some newPassword =>
      if fails .bcryptHash then serverFault p else
      let hashedPassword := env.hash newPassword
      if fails .userUpdate then serverFault p else
      ⟨{ p with users := User.update p.users req.user.id hashedPassword }, 200,
        .message "Password updated successfully"⟩

/-- The validation chains of `POST /api/auth/signup`, as `signup` runs them. -/
def signupErrors (env : Env) (req : Req) : List String :=
  validationResult
    [("name", isLength 20 (some 60) req.body.name),
     ("email", bodyIsEmail env.isEmail req.body.email),
     ("address", isLength 0 (some 400) req.body.address),
     ("password", validatePassword req.body.password)]

/-- The row `signup` hands to `User.create`. -/
def signupUser (env : Env) (newId : String) (req : Req) : User :=
  ⟨newId, req.body.name.getD "", req.body.email.getD "", env.hash (req.body.password.getD ""),
    req.body.address.getD "", "USER"⟩

/-- The requests of a sequence of submissions `(user, rating)` to the create
route, all for the store `storeId`, none with a failing call. -/
def posts (storeId : String) (subs : List (String × Int)) :
    List (Route × (Call → Bool) × Request) :=
  subs.map (fun x => (Route.post, noFault, ratingRequest x.1 storeId x.2))

/-- Two databases hold the same records: the same store rows, the same rating
rows up to their order in the table, and the same first row for every
`(userId, storeId)` pair. -/
def SameRecords (d1 d2 : Db) : Prop :=
  d1.stores = d2.stores ∧ List.Perm d1.ratings d2.ratings ∧
    ∀ v s : String, Rating.findOne d1.ratings v s = Rating.findOne d2.ratings v s

/-! ## Sample data -/

/-- A store identifier. -/
def idA : String := "0a0a0a0a-0000-4000-8000-00000000000a"

/-- A second store identifier. -/
def idB : String := "0b0b0b0b-0000-4000-8000-00000000000b"

/-- A store without ratings. -/
def storeA : Store := ⟨idA, "Alpha", "alpha@example.org", "1 High St", "owner-1", none⟩

/-- A store rated 2 and 5. -/
def storeB : Store := ⟨idB, "Beta", "beta@example.org", "2 Low St", "owner-2", some (7 / 2)⟩

/-- A database with two stores and two ratings of the second one. -/
def sampleDb : Db := ⟨[storeA, storeB], [⟨"u1", idB, 2⟩, ⟨"u2", idB, 5⟩]⟩

/-- The sample database once a third user has rated store B 1: the store
carries the sixteen-digit decimal of 8/3. -/
def ratedThrice : Db :=
  ⟨[storeA, ⟨idB, "Beta", "beta@example.org", "2 Low St", "owner-2",
      some (26666666666666667 / 10000000000000000)⟩],
    [⟨"u1", idB, 2⟩, ⟨"u2", idB, 5⟩, ⟨"u3", idB, 1⟩]⟩

/-- Library functions for the examples: `uuidShape`, an `@` test, an operator
that matches everything, a tagging hash, its comparison and a tagging signer. -/
def sampleEnv : Env :=
  ⟨uuidShape, fun s => s.toList.contains '@', fun _ _ => true, fun s => "#" ++ s,
    fun s h => decide (h = "#" ++ s), fun id => "jwt." ++ id⟩

/-- The identifier of a store owner. -/
def idOwner : String := "0d0d0d0d-0000-4000-8000-00000000000d"

/-- The owner of store B. -/
def ownerB : User :=
  ⟨"owner-2", "Beatrice Example Owner of B", "b@example.org", "#Owner!Pass1", "2 Low St",
    "STORE_OWNER"⟩

/-- A store owner without a store. -/
def ownerD : User :=
  ⟨idOwner, "Dorothy Example Owner of None", "d@example.org", "#Owner!Pass2", "4 Mid St",
    "STORE_OWNER"⟩

/-- The rater u1, an ordinary user. -/
def raterU1 : User :=
  ⟨"u1", "Ursula Example Rater Number One", "u1@example.org", "#Rater!Pass1", "1 Side St",
    "USER"⟩

/-- The sample database with its users. -/
def samplePortal : Portal := ⟨[ownerB, ownerD, raterU1], sampleDb⟩

/-- An administrator's request to create the store Delta for `ownerId`. -/
def newStoreRequest (ownerId : String) : Req :=
  ⟨ownerB, "", ⟨some "Delta", some "delta@example.org", none, some "4 Mid St", none,
    some ownerId, none, none⟩, noFields⟩

/-- The request of u1 to change the password `Rater!Pass1` to `abc`. -/
def shortPasswordRequest : Req :=
  ⟨raterU1, "", ⟨none, none, none, none, none, none, some "Rater!Pass1", some "abc"⟩, noFields⟩

/-- A signup of a new visitor that asks for the role `role`. -/
def signupRequest (email : String) (role : Option String) : Req :=
  ⟨raterU1, "", ⟨some "Nora Example Visitor Number Nine", some email, some "Visitor!Pass9",
    some "9 New St", role, none, none, none⟩, noFields⟩

/-- A password with an uppercase letter and a special character after a line
break. -/
def brokenLinePassword : String := "aaaaaaa\nA!"

/-! ## Basic facts about the queries -/

theorem AVG_eq_arithmeticMean (num : Numeric) (xs : List Int) :
    AVG num xs = (arithmeticMean xs).map num.round := by
  cases xs <;> simp [AVG, arithmeticMean]

theorem findByPk_id {stores : List Store} {id : String} {s : Store}
    (h : Store.findByPk stores id = some s) : s.id = id := by
  have := List.find?_some h
  simpa using this

theorem findByPk_mem {stores : List Store} {id : String} {s : Store}
    (h : Store.findByPk stores id = some s) : s ∈ stores :=
  List.mem_of_find?_eq_some h

theorem findOne_key {rows : List Rating} {u sid : String} {x : Rating}
    (h : Rating.findOne rows u sid = some x) : x.userId = u ∧ x.storeId = sid := by
  have := List.find?_some h
  simpa using this

theorem update_eq_upsert (rows : List Rating) (x : Rating) (r : Int)
    (h : (Rating.findOne rows x.userId x.storeId).isSome) :
    Rating.update rows x r = upsert rows x.userId x.storeId r := by
  induction rows with
  | nil => simp [Rating.findOne] at h
  | cons y ys ih =>
    by_cases hy : y.userId = x.userId ∧ y.storeId = x.storeId
    · simp [Rating.update, upsert, hy]
    · have h2 : (Rating.findOne ys x.userId x.storeId).isSome := by
        have hy2 : (decide (y.userId = x.userId) && decide (y.storeId = x.storeId)) = false := by
          simpa using hy
        simpa [Rating.findOne, List.find?, hy2] using h
      simp [Rating.update, upsert, hy, ih h2]

theorem append_eq_upsert (rows : List Rating) (u sid : String) (r : Int)
    (h : Rating.findOne rows u sid = none) :
    rows ++ [⟨u, sid, r⟩] = upsert rows u sid r := by
  induction rows with
  | nil => simp [upsert]
  | cons y ys ih =>
    have hy2 : (decide (y.userId = u) && decide (y.storeId = sid)) = false := by
      cases hd : (decide (y.userId = u) && decide (y.storeId = sid)) with
      | false => rfl
      | true => simp [Rating.findOne, List.find?, hd] at h
    have hy : ¬ (y.userId = u ∧ y.storeId = sid) := by simpa using hy2
    have h2 : Rating.findOne ys u sid = none := by
      simpa [Rating.findOne, List.find?, hy2] using h
    simp [upsert, hy, ih h2]

/-! ## The handlers in closed form -/

theorem num_of_columnValue {v : Json} {r : Int} (h : columnValue v = some r) : v.num = r := by
  simp [Json.num, h]

theorem postTransaction_eq (num : Numeric) (fails : Call → Bool) (db : Db) (store : Store)
    (req : Request) :
    postTransaction num fails db store req.user (req.body.storeId.getD "")
        (req.body.rating.getD 0) =
      if postThrows fails db req then none
      else some ⟨Store.update db.stores store.id
          (average num (upsert db.ratings req.user (req.body.storeId.getD "")
            (req.body.rating.getD 0).num) (req.body.storeId.getD "")),
        upsert db.ratings req.user (req.body.storeId.getD "") (req.body.rating.getD 0).num⟩ := by
  unfold postTransaction postThrows Rating.findOrCreate
  cases hc : columnValue (req.body.rating.getD 0) with
  | none => cases fails .ratingFindOrCreate <;> simp
  | some r =>
    rw [num_of_columnValue hc]
    cases hf : Rating.findOne db.ratings req.user (req.body.storeId.getD "") with
    | none =>
      have := append_eq_upsert db.ratings req.user (req.body.storeId.getD "") r hf
      simp only [this]
      cases fails .ratingFindOrCreate <;> cases fails .avgQuery <;> cases fails .storeUpdate <;>
        cases fails .commit <;> simp
    | some x =>
      obtain ⟨hu, hs⟩ := findOne_key hf
      have hx : (Rating.findOne db.ratings x.userId x.storeId).isSome := by
        rw [hu, hs, hf]; rfl
      have := update_eq_upsert db.ratings x r hx
      rw [hu, hs] at this
      simp only [this]
      cases fails .ratingFindOrCreate <;> cases fails .ratingUpdate <;> cases fails .avgQuery <;>
        cases fails .storeUpdate <;> cases fails .commit <;> simp

theorem postRating_eq (num : Numeric) (isUUID : String → Bool) (fails : Call → Bool) (db : Db)
    (req : Request) :
    postRating num isUUID fails db req =
      if (bodyIsUUID isUUID req.body.storeId && isInt 1 5 req.body.rating) = false then
        ⟨db, 400, none, false⟩
      else if fails .storeFindByPk then serverError db false
      else if (Store.findByPk db.stores (req.body.storeId.getD "")).isNone then
        ⟨db, 404, some "Store not found", false⟩
      else if fails .transaction then serverError db false
      else if postThrows fails db req then serverError db true
      else ⟨committed num db req.user (req.body.storeId.getD "") (req.body.rating.getD 0).num,
        200, some "Rating submitted successfully", true⟩ := by
  unfold postRating
  simp only [postTransaction_eq]
  cases hu : bodyIsUUID isUUID req.body.storeId <;> cases hi : isInt 1 5 req.body.rating <;>
    simp [validationResult]
  cases fails .storeFindByPk <;> simp
  cases hs : Store.findByPk db.stores (req.body.storeId.getD "") with
  | none => simp
  | some store =>
    have hid := findByPk_id hs
    cases fails .transaction <;> simp
    cases postThrows fails db req <;> simp [committed, hid]

theorem putRating_eq (num : Numeric) (fails : Call → Bool) (db : Db) (req : Request) :
    putRating num fails db req =
      if isInt 1 5 req.body.rating = false then ⟨db, 400, none, false⟩
      else if fails .transaction then serverError db false
      else if putThrows fails db req then serverError db true
      else if (Rating.findOne db.ratings req.user req.paramStoreId).isNone then
        ⟨db, 404, some "Rating not found", true⟩
      else ⟨committed num db req.user req.paramStoreId (req.body.rating.getD 0).num,
        200, some "Rating updated successfully", true⟩ := by
  unfold putRating putThrows
  cases hi : isInt 1 5 req.body.rating <;> simp [validationResult]
  cases fails .transaction <;> simp
  cases fails .ratingFindOne <;> simp
  cases hf : Rating.findOne db.ratings req.user req.paramStoreId with
  | none => cases fails .rollback <;> simp
  | some x =>
    obtain ⟨hu, hs⟩ := findOne_key hf
    have hx : (Rating.findOne db.ratings x.userId x.storeId).isSome := by
      rw [hu, hs, hf]; rfl
    cases hc : columnValue (req.body.rating.getD 0) with
    | none => cases fails .ratingUpdate <;> simp
    | some r =>
      rw [num_of_columnValue hc]
      have := update_eq_upsert db.ratings x r hx
      rw [hu, hs] at this
      cases fails .ratingUpdate <;> cases fails .avgQuery <;>
        cases fails .storeUpdate <;> cases fails .commit <;> simp [committed, this]

/-! ## Facts about `upsert`, `Store.update` and `committed` -/

theorem filter_upsert_of_not (p : Rating → Bool) (rows : List Rating) (u sid : String) (r : Int)
    (hp : ∀ a b : Rating, a.userId = b.userId → a.storeId = b.storeId → p a = p b)
    (hn : p ⟨u, sid, r⟩ = false) :
    (upsert rows u sid r).filter p = rows.filter p := by
  induction rows with
  | nil => simp [upsert, hn]
  | cons y ys ih =>
    by_cases hy : y.userId = u ∧ y.storeId = sid
    · have h1 : p y = false := by rw [hp y ⟨u, sid, r⟩ hy.1 hy.2]; exact hn
      have h2 : p { y with rating := r } = false := by
        rw [hp { y with rating := r } ⟨u, sid, r⟩ hy.1 hy.2]; exact hn
      simp [upsert, hy, List.filter_cons, h1, h2, hn]
    · simp [upsert, hy, List.filter_cons, ih]

theorem filter_upsert_of_pos (p : Rating → Bool) (rows : List Rating) (u sid : String) (r : Int)
    (hp : ∀ a b : Rating, a.userId = b.userId → a.storeId = b.storeId → p a = p b)
    (hn : p ⟨u, sid, r⟩ = true) :
    (upsert rows u sid r).filter p = upsert (rows.filter p) u sid r := by
  induction rows with
  | nil => simp [upsert, hn]
  | cons y ys ih =>
    by_cases hy : y.userId = u ∧ y.storeId = sid
    · have h1 : p y = true := by rw [hp y ⟨u, sid, r⟩ hy.1 hy.2]; exact hn
      have h2 : p { y with rating := r } = true := by
        rw [hp { y with rating := r } ⟨u, sid, r⟩ hy.1 hy.2]; exact hn
      simp [upsert, hy, List.filter_cons, h1, h2, hn]
    · cases hpy : p y
      · simp [upsert, hy, List.filter_cons, hpy, ih]
      · simp [upsert, hy, List.filter_cons, hpy, ih]

theorem upsert_upsert (rows : List Rating) (u sid : String) (r1 r2 : Int) :
    upsert (upsert rows u sid r1) u sid r2 = upsert rows u sid r2 := by
  induction rows with
  | nil => simp [upsert]
  | cons y ys ih =>
    by_cases hy : y.userId = u ∧ y.storeId = sid
    · simp [upsert, hy]
    · simp [upsert, hy, ih]

theorem ratingsOf_upsert_ne (rows : List Rating) (u sid sid2 : String) (r : Int)
    (h : sid ≠ sid2) : ratingsOf (upsert rows u sid r) sid2 = ratingsOf rows sid2 := by
  unfold ratingsOf
  apply filter_upsert_of_not
  · intro a b _ hs; simp [hs]
  · simpa using h

theorem ratingsOf_upsert_same (rows : List Rating) (u sid : String) (r : Int) :
    ratingsOf (upsert rows u sid r) sid = upsert (ratingsOf rows sid) u sid r := by
  unfold ratingsOf
  apply filter_upsert_of_pos
  · intro a b _ hs; simp [hs]
  · simp

theorem findOne_ratingsOf (rows : List Rating) (u sid : String) :
    Rating.findOne (ratingsOf rows sid) u sid = Rating.findOne rows u sid := by
  induction rows with
  | nil => rfl
  | cons y ys ih =>
    unfold Rating.findOne ratingsOf at *
    by_cases hs : y.storeId = sid
    · by_cases hu : y.userId = u
      · simp [List.filter_cons, List.find?, hs, hu]
      · simp [List.filter_cons, List.find?, hs, hu, ih]
    · simp [List.filter_cons, List.find?, hs, ih]

theorem upsert_ne_nil (rows : List Rating) (u sid : String) (r : Int) :
    upsert rows u sid r ≠ [] := by
  cases rows with
  | nil => simp [upsert]
  | cons y ys => unfold upsert; split <;> simp

theorem storeUpdate_storeUpdate (stores : List Store) (id : String) (a b : Option ℚ) :
    Store.update (Store.update stores id a) id b = Store.update stores id b := by
  unfold Store.update
  rw [List.map_map]
  apply List.map_congr_left
  intro s _
  by_cases h : s.id = id <;> simp [h]

theorem findByPk_storeUpdate (stores : List Store) (id : String) (a : Option ℚ) :
    Store.findByPk (Store.update stores id a) id =
      (Store.findByPk stores id).map (fun s => { s with averageRating := a }) := by
  induction stores with
  | nil => rfl
  | cons y ys ih =>
    unfold Store.findByPk Store.update at *
    by_cases h : y.id = id
    · simp [List.find?, h]
    · simp [List.find?, h, ih]

theorem committed_committed (num : Numeric) (db : Db) (u sid : String) (r1 r2 : Int) :
    committed num (committed num db u sid r1) u sid r2 = committed num db u sid r2 := by
  simp [committed, upsert_upsert, storeUpdate_storeUpdate]

theorem meanInvariant_committed (num : Numeric) (db : Db) (u sid : String) (r : Int)
    (h : StoredMeanInvariant num db) : StoredMeanInvariant num (committed num db u sid r) := by
  intro s hs
  simp only [committed, Store.update, List.mem_map] at hs
  obtain ⟨t, ht, rfl⟩ := hs
  have key := h t ht
  by_cases hid : t.id = sid
  · simp only [hid, if_true, committed]
    rw [← AVG_eq_arithmeticMean]
    rfl
  · simp only [hid, if_false, committed]
    have := ratingsOf_upsert_ne db.ratings u sid t.id r (Ne.symm hid)
    unfold ratingsOf at this
    rw [this]
    exact key

theorem handle_db (num : Numeric) (isUUID : String → Bool) (route : Route) (fails : Call → Bool)
    (db : Db)
    (req : Request) :
    (handle num isUUID route fails db req).db = db ∨
      (handle num isUUID route fails db req).db =
        committed num db req.user (targetStore route req) (req.body.rating.getD 0).num := by
  cases route with
  | post =>
    simp only [handle, targetStore, postRating_eq]
    repeat (first | split | simp [serverError])
  | put =>
    simp only [handle, targetStore, putRating_eq]
    repeat (first | split | simp [serverError])

theorem isInt_intCast (r : Int) :
    isInt 1 5 (some (.scalar (.number (r : ℚ)))) = decide (1 ≤ r ∧ r ≤ 5) := by
  simp [isInt, scalarIsInt, Rat.isInt, Bool.decide_and]

theorem columnValue_intCast (r : Int) : columnValue (.scalar (.number (r : ℚ))) = some r := by
  simp [columnValue, Rat.isInt]

theorem postRating_ok (num : Numeric) (isUUID : String → Bool) (db : Db) (u sid : String) (r : Int)
    (hS : (Store.findByPk db.stores sid).isSome) (hU : isUUID sid = true)
    (hr : 1 ≤ r ∧ r ≤ 5) :
    postRating num isUUID noFault db (ratingRequest u sid r) =
      ⟨committed num db u sid r, 200, some "Rating submitted successfully", true⟩ := by
  have hi := isInt_intCast r
  rw [decide_eq_true hr] at hi
  rw [postRating_eq]
  simp [ratingRequest, bodyIsUUID, hU, hi, noFault, postThrows, hS, columnValue_intCast,
    Json.num]
  intro h; simp [h] at hS

theorem putRating_ok (num : Numeric) (db : Db) (u sid : String) (r : Int)
    (hf : (Rating.findOne db.ratings u sid).isSome) (hr : 1 ≤ r ∧ r ≤ 5) :
    putRating num noFault db (ratingRequest u sid r) =
      ⟨committed num db u sid r, 200, some "Rating updated successfully", true⟩ := by
  have hi := isInt_intCast r
  rw [decide_eq_true hr] at hi
  rw [putRating_eq]
  simp [ratingRequest, hi, noFault, putThrows, hf, columnValue_intCast, Json.num]
  intro h; simp [h] at hf

theorem aggregateOf_committed (num : Numeric) (db : Db) (u sid : String) (r : Int)
    (hS : (Store.findByPk db.stores sid).isSome) :
    aggregateOf (committed num db u sid r) sid =
      some (AVG num ((upsert (ratingsOf db.ratings sid) u sid r).map (fun x => x.rating))) := by
  obtain ⟨s, hs⟩ := Option.isSome_iff_exists.mp hS
  simp [aggregateOf, committed, findByPk_storeUpdate, hs, average, ratingsOf_upsert_same]

theorem findByPk_committed (num : Numeric) (db : Db) (u sid : String) (r : Int)
    (hS : (Store.findByPk db.stores sid).isSome) :
    (Store.findByPk (committed num db u sid r).stores sid).isSome := by
  obtain ⟨s, hs⟩ := Option.isSome_iff_exists.mp hS
  simp [committed, findByPk_storeUpdate, hs]

theorem meanInvariant_run (num : Numeric) (isUUID : String → Bool)
    (reqs : List (Route × (Call → Bool) × Request)) :
    ∀ db : Db, StoredMeanInvariant num db → StoredMeanInvariant num (run num isUUID db reqs) := by
  induction reqs with
  | nil => intro db h; exact h
  | cons x xs ih =>
    intro db h
    have : run num isUUID db (x :: xs) =
        run num isUUID (handle num isUUID x.1 x.2.1 db x.2.2).db xs := rfl
    rw [this]
    apply ih
    rcases handle_db num isUUID x.1 x.2.1 db x.2.2 with h1 | h1
    · rw [h1]; exact h
    · rw [h1]; exact meanInvariant_committed num _ _ _ _ h

theorem meanInvariant_sampleDb : MeanInvariant sampleDb := by
  intro s hs
  simp only [sampleDb, List.mem_cons, List.mem_singleton, List.not_mem_nil, or_false] at hs
  rcases hs with rfl | rfl
  · simp [sampleDb, storeA, idA, idB, arithmeticMean]
  · simp [sampleDb, storeB, idA, idB, arithmeticMean]

theorem storedMeanInvariant_of_exact (num : Numeric) (db : Db) (h : MeanInvariant db)
    (hx : ∀ s ∈ db.stores, ∀ q : ℚ, s.averageRating = some q → ∃ n : Int, q = (n : ℚ) / 2) :
    StoredMeanInvariant num db := by
  intro s hs
  rw [← h s hs]
  cases hq : s.averageRating with
  | none => rfl
  | some q =>
    obtain ⟨n, hn⟩ := hx s hs q hq
    simp [hn, num.half]

theorem round_eq_of_half (num : Numeric) (q : ℚ) (n : Int) (h : q = (n : ℚ) / 2) :
    num.round q = q := by
  rw [h, num.half]

theorem round_intCast (num : Numeric) (n : Int) : num.round (n : ℚ) = (n : ℚ) :=
  round_eq_of_half num _ (2 * n) (by push_cast; ring)

theorem round_bounds (num : Numeric) (lo hi : Int) (q : ℚ) (h : (lo : ℚ) ≤ q ∧ q ≤ (hi : ℚ)) :
    (lo : ℚ) ≤ num.round q ∧ num.round q ≤ (hi : ℚ) := by
  have h1 := num.mono _ _ h.1
  have h2 := num.mono _ _ h.2
  rw [round_intCast] at h1 h2
  exact ⟨h1, h2⟩

theorem decimal16_round_of_floor (q : ℚ) (z : Int) (h0 : 0 ≤ q)
    (h1 : (z : ℚ) ≤ q * 10 ^ 16 + 1 / 2) (h2 : q * 10 ^ 16 + 1 / 2 < (z : ℚ) + 1) :
    decimal16.round q = (z : ℚ) / 10 ^ 16 := by
  have hfl : ⌊q * 10 ^ 16 + 1 / 2⌋ = z := Int.floor_eq_iff.mpr ⟨h1, h2⟩
  simp only [decimal16, roundPlaces]
  rw [if_pos h0, hfl]

theorem decimal16_round_eight_thirds :
    decimal16.round (8 / 3) = 26666666666666667 / 10000000000000000 := by
  have hfl : ⌊(8 / 3 : ℚ) * 10 ^ 16 + 1 / 2⌋ = 26666666666666667 := by
    rw [Int.floor_eq_iff]
    constructor <;> norm_num
  simp only [decimal16, roundPlaces]
  rw [if_pos (by norm_num), hfl]
  norm_num

theorem storedMeanInvariant_sampleDb (num : Numeric) : StoredMeanInvariant num sampleDb := by
  apply storedMeanInvariant_of_exact num sampleDb meanInvariant_sampleDb
  intro s hs q hq
  simp only [sampleDb, List.mem_cons, List.mem_singleton, List.not_mem_nil, or_false] at hs
  rcases hs with rfl | rfl
  · simp [storeA] at hq
  · exact ⟨7, by simp [storeB] at hq; rw [← hq]; norm_num⟩

theorem isInt_iff (q : ℚ) :
    isInt 1 5 (some (.scalar (.number q))) = true ↔ ∃ n : Int, 1 ≤ n ∧ n ≤ 5 ∧ q = (n : ℚ) := by
  constructor
  · intro h
    simp only [isInt, scalarIsInt, Rat.isInt, Bool.and_eq_true, beq_iff_eq,
      decide_eq_true_eq] at h
    exact ⟨q.num, h.1.2, h.2, by rw [Rat.coe_int_num_of_den_eq_one h.1.1]⟩
  · rintro ⟨n, h1, h5, rfl⟩
    rw [isInt_intCast]
    exact decide_eq_true ⟨h1, h5⟩

theorem upsert_of_filter_key (rows : List Rating) (u sid : String) (r : Int)
    (h : (rows.filter (fun x => decide (x.userId = u) && decide (x.storeId = sid))).length ≤ 1) :
    upsert (rows.filter (fun x => decide (x.userId = u) && decide (x.storeId = sid))) u sid r =
      [⟨u, sid, r⟩] := by
  generalize hl : rows.filter (fun x => decide (x.userId = u) && decide (x.storeId = sid)) = l
    at h
  match l, hl, h with
  | [], _, _ => simp [upsert]
  | [y], hl, _ =>
    have hy : y ∈ rows.filter (fun x => decide (x.userId = u) && decide (x.storeId = sid)) := by
      rw [hl]; simp
    have hk : y.userId = u ∧ y.storeId = sid := by simpa using (List.mem_filter.mp hy).2
    simp [upsert, hk]
  | _ :: _ :: _, _, h => simp at h

theorem filter_key_upsert (rows : List Rating) (u sid : String) (r : Int)
    (h : (rows.filter (fun x => decide (x.userId = u) && decide (x.storeId = sid))).length ≤ 1) :
    (upsert rows u sid r).filter (fun x => decide (x.userId = u) && decide (x.storeId = sid)) =
      [⟨u, sid, r⟩] := by
  rw [filter_upsert_of_pos _ rows u sid r (by intro a b h1 h2; simp [h1, h2]) (by simp)]
  exact upsert_of_filter_key rows u sid r h

theorem uniquePairs_upsert (rows : List Rating) (u sid : String) (r : Int)
    (h : UniquePairs rows) : UniquePairs (upsert rows u sid r) := by
  intro u2 s2
  by_cases hk : u = u2 ∧ sid = s2
  · obtain ⟨rfl, rfl⟩ := hk
    rw [filter_key_upsert rows u sid r (h u sid)]
    simp
  · rw [filter_upsert_of_not _ rows u sid r (by intro a b h1 h2; simp [h1, h2])
      (by simpa using hk)]
    exact h u2 s2

theorem uniquePairs_run (num : Numeric) (isUUID : String → Bool) (reqs : List (Route ×
    (Call → Bool) × Request)) :
    ∀ db : Db, UniquePairs db.ratings → UniquePairs (run num isUUID db reqs).ratings := by
  induction reqs with
  | nil => intro db h; exact h
  | cons x xs ih =>
    intro db h
    have : run num isUUID db (x :: xs) = run num isUUID (handle num isUUID x.1 x.2.1 db x.2.2).db xs := rfl
    rw [this]
    apply ih
    rcases handle_db num isUUID x.1 x.2.1 db x.2.2 with h1 | h1
    · rw [h1]; exact h
    · rw [h1]; exact uniquePairs_upsert _ _ _ _ h

theorem uniquePairs_sampleDb : UniquePairs sampleDb.ratings := by
  intro u s
  simp only [sampleDb, List.filter_cons, List.filter_nil]
  by_cases h1 : "u1" = u <;> by_cases h2 : "u2" = u
  · exact absurd (h1.trans h2.symm) (by decide)
  all_goals (split <;> split <;> simp_all)

theorem handle_failure_db (num : Numeric) (isUUID : String → Bool) (route : Route)
    (fails : Call → Bool)
    (db : Db) (req : Request) (h : (handle num isUUID route fails db req).status ≠ 200) :
    (handle num isUUID route fails db req).db = db := by
  cases route with
  | post =>
    simp only [handle, postRating_eq] at h ⊢
    repeat (first | split | simp [serverError])
    simp_all [serverError]
  | put =>
    simp only [handle, putRating_eq] at h ⊢
    repeat (first | split | simp [serverError])
    simp_all [serverError]

theorem postRating_noFault (num : Numeric) (isUUID : String → Bool) (db : Db) (req : Request) :
    postRating num isUUID noFault db req =
      if (bodyIsUUID isUUID req.body.storeId && isInt 1 5 req.body.rating) = false then
        ⟨db, 400, none, false⟩
      else if (Store.findByPk db.stores (req.body.storeId.getD "")).isNone then
        ⟨db, 404, some "Store not found", false⟩
      else if (columnValue (req.body.rating.getD 0)).isNone then serverError db true
      else ⟨committed num db req.user (req.body.storeId.getD "") (req.body.rating.getD 0).num,
        200, some "Rating submitted successfully", true⟩ := by
  rw [postRating_eq]
  simp [noFault, postThrows]

theorem postRating_twice (num : Numeric) (isUUID : String → Bool) (db : Db) (req : Request) :
    postRating num isUUID noFault (postRating num isUUID noFault db req).db req =
      postRating num isUUID noFault db req := by
  rw [postRating_noFault num isUUID db req]
  split_ifs with h1 h2 h3
  · rw [postRating_noFault]; simp [h1]
  · rw [postRating_noFault]; simp [h1, h2]
  · rw [postRating_noFault]; simp [h1, h2, h3, serverError]
  · have hS : (Store.findByPk db.stores (req.body.storeId.getD "")).isSome := by
      cases hf : Store.findByPk db.stores (req.body.storeId.getD "") with
      | none => simp [hf] at h2
      | some s => rfl
    have hS2 := findByPk_committed num db req.user (req.body.storeId.getD "")
      (req.body.rating.getD 0).num hS
    have hS3 : (Store.findByPk (committed num db req.user (req.body.storeId.getD "")
        (req.body.rating.getD 0).num).stores (req.body.storeId.getD "")).isNone = false := by
      cases hf : Store.findByPk (committed num db req.user (req.body.storeId.getD "")
          (req.body.rating.getD 0).num).stores (req.body.storeId.getD "") with
      | none => simp [hf] at hS2
      | some s => rfl
    rw [postRating_noFault]
    simp only [h1, hS3, h3, committed_committed]
    simp

theorem findOne_upsert (rows : List Rating) (u sid : String) (r : Int) :
    Rating.findOne (upsert rows u sid r) u sid = some ⟨u, sid, r⟩ := by
  induction rows with
  | nil => simp [upsert, Rating.findOne, List.find?]
  | cons y ys ih =>
    by_cases hy : y.userId = u ∧ y.storeId = sid
    · simp [upsert, hy, Rating.findOne, List.find?]
    · have hy2 : (decide (y.userId = u) && decide (y.storeId = sid)) = false := by simpa using hy
      unfold Rating.findOne at ih
      simp [upsert, hy, Rating.findOne, List.find?, hy2, ih]

theorem length_upsert_of_found (rows : List Rating) (u sid : String) (r : Int)
    (h : (Rating.findOne rows u sid).isSome) : (upsert rows u sid r).length = rows.length := by
  induction rows with
  | nil => simp [Rating.findOne] at h
  | cons y ys ih =>
    by_cases hy : y.userId = u ∧ y.storeId = sid
    · simp [upsert, hy]
    · have hy2 : (decide (y.userId = u) && decide (y.storeId = sid)) = false := by simpa using hy
      have h2 : (Rating.findOne ys u sid).isSome := by
        simpa [Rating.findOne, List.find?, hy2] using h
      simp [upsert, hy, ih h2]

theorem sum_upsert_of_found (rows : List Rating) (u sid : String) (r : Int) (x : Rating)
    (h : Rating.findOne rows u sid = some x) :
    ((upsert rows u sid r).map (fun y => y.rating)).sum =
      (rows.map (fun y => y.rating)).sum - x.rating + r := by
  induction rows with
  | nil => simp [Rating.findOne] at h
  | cons y ys ih =>
    by_cases hy : y.userId = u ∧ y.storeId = sid
    · have hy2 : (decide (y.userId = u) && decide (y.storeId = sid)) = true := by simpa using hy
      have hx : y = x := by simpa [Rating.findOne, List.find?, hy2] using h
      subst hx
      simp [upsert, hy]
      ring
    · have hy2 : (decide (y.userId = u) && decide (y.storeId = sid)) = false := by simpa using hy
      have h2 : Rating.findOne ys u sid = some x := by
        simpa [Rating.findOne, List.find?, hy2] using h
      simp [upsert, hy, ih h2]
      ring

theorem mem_storeUpdate_average (stores : List Store) (id : String) (a : Option ℚ) (s : Store)
    (hs : s ∈ Store.update stores id a) (hid : s.id = id) : s.averageRating = a := by
  simp only [Store.update, List.mem_map] at hs
  obtain ⟨t, _, rfl⟩ := hs
  by_cases ht : t.id = id
  · simp [ht]
  · simp [ht] at hid

theorem handle_success (num : Numeric) (isUUID : String → Bool) (route : Route) (db : Db)
    (req : Request)
    (h : (handle num isUUID route noFault db req).status = 200) :
    (handle num isUUID route noFault db req).db =
      committed num db req.user (targetStore route req) (req.body.rating.getD 0).num := by
  cases route with
  | post =>
    simp only [handle, targetStore, postRating_eq, serverError] at h ⊢
    split_ifs at h ⊢ <;> first | rfl | (simp at h)
  | put =>
    simp only [handle, targetStore, putRating_eq, serverError] at h ⊢
    split_ifs at h ⊢ <;> first | rfl | (simp at h)

theorem createStore_eq (env : Env) (fails : Await → Bool) (newId : String) (p : Portal)
    (req : Req) :
    createStore env fails newId p req =
      if (createStoreErrors env req).isEmpty = false then
        ⟨p, 400, .errors (createStoreErrors env req)⟩
      else if fails .userFindByPk then serverFault p
      else if (User.findByPk p.users (req.body.ownerId.getD "")).map (fun u => u.role) ≠
          some "STORE_OWNER" then ⟨p, 400, .message "Invalid store owner"⟩
      else if fails .storeCreate then serverFault p
      else ⟨{ p with db := { p.db with stores := p.db.stores ++
          [⟨newId, req.body.name.getD "", req.body.email.getD "", req.body.address.getD "",
            req.body.ownerId.getD "", none⟩] } }, 201,
        .store ⟨newId, req.body.name.getD "", req.body.email.getD "", req.body.address.getD "",
          req.body.ownerId.getD "", none⟩⟩ := by
  simp only [createStore]
  cases hE : (createStoreErrors env req).isEmpty
  · simp
  · cases hF : fails .userFindByPk
    · cases hO : User.findByPk p.users (req.body.ownerId.getD "") with
      | none => simp
      | some owner =>
        by_cases hR : owner.role = "STORE_OWNER"
        · cases hC : fails .storeCreate <;> simp [hR]
        · simp [hR]
    · simp

theorem dotStarThen_exists (cls : Char → Bool) (l : List Char) (h : dotStarThen cls l = true) :
    ∃ c ∈ l, cls c = true := by
  induction l with
  | nil => simp [dotStarThen] at h
  | cons c cs ih =>
    simp only [dotStarThen, Bool.or_eq_true, Bool.and_eq_true] at h
    rcases h with h | ⟨_, h⟩
    · exact ⟨c, List.mem_cons_self _ _, h⟩
    · obtain ⟨d, hd, hc⟩ := ih h
      exact ⟨d, List.mem_cons_of_mem _ hd, hc⟩

theorem dotStarThen_of_exists (cls : Char → Bool) (l : List Char)
    (hl : ∀ c ∈ l, lineTerminator c = false) (h : ∃ c ∈ l, cls c = true) :
    dotStarThen cls l = true := by
  induction l with
  | nil => simp at h
  | cons c cs ih =>
    obtain ⟨d, hd, hc⟩ := h
    simp only [dotStarThen, Bool.or_eq_true, Bool.and_eq_true]
    rcases List.mem_cons.mp hd with rfl | hd
    · exact Or.inl hc
    · refine Or.inr ⟨by simp [hl c (List.mem_cons_self _ _)], ?_⟩
      exact ih (fun x hx => hl x (List.mem_cons_of_mem _ hx)) ⟨d, hd, hc⟩

theorem userCreate_some {isEmail : String → Bool} {users l : List User} {u : User}
    (h : User.create isEmail users u = some l) : l = users ++ [u] := by
  unfold User.create at h
  split_ifs at h
  exact (Option.some.inj h).symm

theorem signup_eq (env : Env) (fails : Await → Bool) (newId : String) (p : Portal) (req : Req) :
    signup env fails newId p req =
      if (signupErrors env req).isEmpty = false then ⟨p, 400, .errors (signupErrors env req)⟩
      else if fails .userFindOne then serverFault p
      else if (User.findOne p.users (req.body.email.getD "")).isSome then
        ⟨p, 400, .message "Email already registered"⟩
      else if fails .bcryptHash then serverFault p
      else if fails .userCreate then serverFault p
      else if (User.create env.isEmail p.users (signupUser env newId req)).isNone then
        serverFault p
      else if fails .jwtSign then
        serverFault { p with users := p.users ++ [signupUser env newId req] }
      else ⟨{ p with users := p.users ++ [signupUser env newId req] }, 201,
        .token (env.sign newId)⟩ := by
  simp only [signup, signupErrors, signupUser]
  cases hE : (validationResult
    [("name", isLength 20 (some 60) req.body.name),
     ("email", bodyIsEmail env.isEmail req.body.email),
     ("address", isLength 0 (some 400) req.body.address),
     ("password", validatePassword req.body.password)]).isEmpty
  · simp
  · cases hF : fails .userFindOne
    · cases hO : User.findOne p.users (req.body.email.getD "") with
      | some u => simp
      | none =>
        cases hH : fails .bcryptHash
        · cases hC : fails .userCreate
          · cases hU : User.create env.isEmail p.users
                ⟨newId, req.body.name.getD "", req.body.email.getD "",
                  env.hash (req.body.password.getD ""), req.body.address.getD "", "USER"⟩ with
            | none => simp
            | some l =>
              have hl := userCreate_some hU
              subst hl
              cases hJ : fails .jwtSign <;> simp
          · simp
        · simp
    · simp

theorem upsert_shape (rows : List Rating) (u sid : String) (r : Int) :
    upsert rows u sid r = rows ++ [⟨u, sid, r⟩] ∨
      ∃ pre x post, rows = pre ++ x :: post ∧ x.userId = u ∧ x.storeId = sid ∧
        upsert rows u sid r = pre ++ ⟨u, sid, r⟩ :: post := by
  induction rows with
  | nil => left; simp [upsert]
  | cons y ys ih =>
    by_cases hy : y.userId = u ∧ y.storeId = sid
    · right
      refine ⟨[], y, ys, rfl, hy.1, hy.2, ?_⟩
      simp [upsert, hy]
    · rcases ih with h | ⟨pre, x, post, h1, h2, h3, h4⟩
      · left; simp [upsert, hy, h]
      · right
        exact ⟨y :: pre, x, post, by simp [h1], h2, h3, by simp [upsert, hy, h4]⟩

theorem storeUpdate_filter_ne (stores : List Store) (id : String) (a : Option ℚ) :
    (Store.update stores id a).filter (fun s => decide (s.id ≠ id)) =
      stores.filter (fun s => decide (s.id ≠ id)) := by
  induction stores with
  | nil => rfl
  | cons y ys ih =>
    unfold Store.update at ih ⊢
    have ih2 : List.filter (fun s => !decide (s.id = id))
        (List.map (fun s => if s.id = id then { s with averageRating := a } else s) ys) =
        List.filter (fun s => !decide (s.id = id)) ys := by simpa using ih
    by_cases h : y.id = id
    · simp [List.filter_cons, h, ih2]
    · simp [List.filter_cons, h, ih2]

theorem storeUpdate_map_fields (stores : List Store) (id : String) (a : Option ℚ) :
    (Store.update stores id a).map (fun s => (s.id, s.name, s.email, s.address, s.ownerId)) =
      stores.map (fun s => (s.id, s.name, s.email, s.address, s.ownerId)) := by
  unfold Store.update
  rw [List.map_map]
  apply List.map_congr_left
  intro s _
  by_cases h : s.id = id <;> simp [h]

theorem sum_bounds (l : List Int) (lo hi : Int) (h : ∀ x ∈ l, lo ≤ x ∧ x ≤ hi) :
    lo * (l.length : Int) ≤ l.sum ∧ l.sum ≤ hi * (l.length : Int) := by
  induction l with
  | nil => simp
  | cons y ys ih =>
    have hy := h y (List.mem_cons_self _ _)
    have hys := ih (fun x hx => h x (List.mem_cons_of_mem _ hx))
    simp only [List.length_cons, List.sum_cons, Nat.cast_add, Nat.cast_one]
    constructor <;> nlinarith [hy.1, hy.2, hys.1, hys.2]

theorem mean_bounds (l : List Int) (hl : l ≠ []) (lo hi : Int)
    (h : ∀ x ∈ l, lo ≤ x ∧ x ≤ hi) :
    (lo : ℚ) ≤ (l.sum : ℚ) / (l.length : ℚ) ∧ (l.sum : ℚ) / (l.length : ℚ) ≤ (hi : ℚ) := by
  have hpos : (0 : ℚ) < (l.length : ℚ) := by
    have : 0 < l.length := List.length_pos.mpr hl
    exact_mod_cast this
  obtain ⟨h1, h2⟩ := sum_bounds l lo hi h
  have h1q : (lo : ℚ) * (l.length : ℚ) ≤ (l.sum : ℚ) := by exact_mod_cast h1
  have h2q : (l.sum : ℚ) ≤ (hi : ℚ) * (l.length : ℚ) := by exact_mod_cast h2
  exact ⟨(le_div_iff₀ hpos).mpr h1q, (div_le_iff₀ hpos).mpr h2q⟩

theorem mem_upsert (rows : List Rating) (u sid : String) (r : Int) (x : Rating)
    (h : x ∈ upsert rows u sid r) : x ∈ rows ∨ x = ⟨u, sid, r⟩ := by
  rcases upsert_shape rows u sid r with hs | ⟨pre, y, post, h1, _, _, h4⟩
  · rw [hs] at h
    simpa using h
  · rw [h4] at h
    rw [h1]
    simp only [List.mem_append, List.mem_cons] at h ⊢
    rcases h with h | h | h
    · exact Or.inl (Or.inl h)
    · exact Or.inr h
    · exact Or.inl (Or.inr (Or.inr h))

theorem isInt_bounds (v : Option Json) (h : isInt 1 5 v = true)
    (hc : (columnValue (v.getD 0)).isSome) :
    1 ≤ (v.getD 0).num ∧ (v.getD 0).num ≤ 5 := by
  cases v with
  | none => simp [isInt] at h
  | some j =>
    cases j with
    | array items => simp [columnValue] at hc
    | scalar x =>
      cases x with
      | number q =>
        simp only [isInt, scalarIsInt, Bool.and_eq_true, decide_eq_true_eq] at h
        simp only [Option.getD_some, Json.num, columnValue, h.1.1, if_true]
        exact ⟨h.1.2, h.2⟩
      | string s =>
        simp only [isInt, scalarIsInt] at h
        simp only [Option.getD_some, Json.num, columnValue]
        cases hl : intLiteral s with
        | none => simp [hl] at h
        | some n => simpa [hl] using h
      | other s => simp [columnValue] at hc

theorem handle_success_valid (num : Numeric) (isUUID : String → Bool) (route : Route) (db : Db)
    (req : Request)
    (h : (handle num isUUID route noFault db req).status = 200) :
    isInt 1 5 req.body.rating = true ∧ (columnValue (req.body.rating.getD 0)).isSome := by
  constructor
  · cases hi : isInt 1 5 req.body.rating with
    | true => rfl
    | false =>
      cases route with
      | post => simp [handle, postRating_eq, hi] at h
      | put => simp [handle, putRating_eq, hi] at h
  · cases hc : columnValue (req.body.rating.getD 0) with
    | some r => rfl
    | none =>
      cases route with
      | post =>
        simp only [handle, postRating_eq, postThrows, hc, Option.isNone_none, Bool.or_true,
          Bool.true_or, if_true] at h
        split_ifs at h <;> simp_all [serverError]
      | put =>
        simp only [handle, putRating_eq, putThrows, hc, Option.isNone_none, Bool.or_true,
          Bool.true_or] at h
        split_ifs at h <;> simp_all [serverError]

theorem exists_min_max (l : List Rating) (hl : l ≠ []) :
    ∃ a ∈ l, ∃ b ∈ l, ∀ x ∈ l, a.rating ≤ x.rating ∧ x.rating ≤ b.rating := by
  have hne : l.toFinset.Nonempty := by
    obtain ⟨y, hy⟩ := List.exists_mem_of_ne_nil l hl
    exact ⟨y, List.mem_toFinset.mpr hy⟩
  obtain ⟨a, ha, hmin⟩ := Finset.exists_min_image l.toFinset (fun x => x.rating) hne
  obtain ⟨b, hb, hmax⟩ := Finset.exists_max_image l.toFinset (fun x => x.rating) hne
  exact ⟨a, List.mem_toFinset.mp ha, b, List.mem_toFinset.mp hb,
    fun x hx => ⟨hmin x (List.mem_toFinset.mpr hx), hmax x (List.mem_toFinset.mpr hx)⟩⟩

theorem findOne_upsert_other (rows : List Rating) (u sid v s : String) (r : Int)
    (h : ¬ (v = u ∧ s = sid)) :
    Rating.findOne (upsert rows u sid r) v s = Rating.findOne rows v s := by
  induction rows with
  | nil =>
    have h2 : (decide (u = v) && decide (sid = s)) = false := by
      simp only [Bool.and_eq_false_imp, decide_eq_true_eq, decide_eq_false_iff_not]
      intro h1 h3
      exact h ⟨h1.symm, h3.symm⟩
    simp [upsert, Rating.findOne, List.find?, h2]
  | cons y ys ih =>
    unfold Rating.findOne at ih ⊢
    by_cases hy : y.userId = u ∧ y.storeId = sid
    · have h2 : (decide (y.userId = v) && decide (y.storeId = s)) = false := by
        simp only [Bool.and_eq_false_imp, decide_eq_true_eq, decide_eq_false_iff_not]
        intro h1 h3
        exact h ⟨h1.symm.trans hy.1, h3.symm.trans hy.2⟩
      have h3 : (decide (u = v) && decide (sid = s)) = false := by
        simp only [Bool.and_eq_false_imp, decide_eq_true_eq, decide_eq_false_iff_not]
        intro h1 h4
        exact h ⟨h1.symm, h4.symm⟩
      simp [upsert, hy, List.find?, h2, h3]
    · by_cases hv : y.userId = v ∧ y.storeId = s
      · simp [upsert, hy, List.find?, hv, h]
      · have h2 : (decide (y.userId = v) && decide (y.storeId = s)) = false := by
          simpa using hv
        simp only [upsert, hy, if_false, List.find?, h2, ih]

theorem upsert_perm_erase (rows : List Rating) (u sid : String) (r : Int) (x : Rating)
    (h : Rating.findOne rows u sid = some x) :
    List.Perm (upsert rows u sid r) (⟨u, sid, r⟩ :: rows.erase x) := by
  induction rows with
  | nil => simp [Rating.findOne] at h
  | cons y ys ih =>
    by_cases hy : y.userId = u ∧ y.storeId = sid
    · have hy2 : (decide (y.userId = u) && decide (y.storeId = sid)) = true := by simpa using hy
      have hx : y = x := by simpa [Rating.findOne, List.find?, hy2] using h
      subst hx
      simp [upsert, hy]
    · have hy2 : (decide (y.userId = u) && decide (y.storeId = sid)) = false := by simpa using hy
      have h2 : Rating.findOne ys u sid = some x := by
        simpa [Rating.findOne, List.find?, hy2] using h
      have hne : ¬ (y == x) = true := by
        intro he
        have hyx : y = x := by simpa using he
        exact hy (hyx ▸ findOne_key h2)
      rw [List.erase_cons_tail hne]
      simp only [upsert, hy, if_false]
      exact ((ih h2).cons y).trans (List.Perm.swap _ _ _)

theorem upsert_congr (l1 l2 : List Rating) (u sid : String) (r : Int)
    (hp : List.Perm l1 l2) (hf : Rating.findOne l1 u sid = Rating.findOne l2 u sid) :
    List.Perm (upsert l1 u sid r) (upsert l2 u sid r) := by
  cases h1 : Rating.findOne l1 u sid with
  | none =>
    rw [← append_eq_upsert l1 u sid r h1, ← append_eq_upsert l2 u sid r (hf ▸ h1)]
    exact hp.append_right _
  | some x =>
    exact (upsert_perm_erase l1 u sid r x h1).trans
      (((hp.erase x).cons _).trans (upsert_perm_erase l2 u sid r x (hf ▸ h1)).symm)

theorem average_congr (num : Numeric) (l1 l2 : List Rating) (sid : String) (hp : List.Perm l1 l2) :
    average num l1 sid = average num l2 sid := by
  have hm : List.Perm ((ratingsOf l1 sid).map (fun x => x.rating))
      ((ratingsOf l2 sid).map (fun x => x.rating)) := (hp.filter _).map _
  simp only [average, AVG_eq_arithmeticMean, arithmeticMean, hm.length_eq, hm.sum_eq]

theorem upsert_comm (rows : List Rating) (u1 u2 sid : String) (r1 r2 : Int) (hne : u1 ≠ u2) :
    List.Perm (upsert (upsert rows u1 sid r1) u2 sid r2)
      (upsert (upsert rows u2 sid r2) u1 sid r1) := by
  have hne2 : ¬ u2 = u1 := fun h => hne h.symm
  induction rows with
  | nil =>
    simp only [upsert, hne, hne2, false_and, if_false]
    exact List.Perm.swap _ _ _
  | cons y ys ih =>
    by_cases h1 : y.userId = u1 ∧ y.storeId = sid
    · have h2 : ¬ (y.userId = u2 ∧ y.storeId = sid) := fun h => hne (h1.1.symm.trans h.1)
      simp [upsert, h1, h2, hne]
    · by_cases h2 : y.userId = u2 ∧ y.storeId = sid
      · simp [upsert, h1, h2, hne2]
      · simp only [upsert, h1, h2, if_false]
        exact ih.cons y

theorem sameRecords_refl (d : Db) : SameRecords d d :=
  ⟨rfl, List.Perm.refl _, fun _ _ => rfl⟩

theorem sameRecords_trans {d1 d2 d3 : Db} (h1 : SameRecords d1 d2) (h2 : SameRecords d2 d3) :
    SameRecords d1 d3 :=
  ⟨h1.1.trans h2.1, h1.2.1.trans h2.2.1, fun v s => (h1.2.2 v s).trans (h2.2.2 v s)⟩

theorem committed_congr (num : Numeric) (d1 d2 : Db) (u sid : String) (r : Int)
    (h : SameRecords d1 d2) :
    SameRecords (committed num d1 u sid r) (committed num d2 u sid r) := by
  have hp := upsert_congr d1.ratings d2.ratings u sid r h.2.1 (h.2.2 u sid)
  refine ⟨?_, hp, ?_⟩
  · simp only [committed, h.1, average_congr num _ _ sid hp]
  · intro v s
    simp only [committed]
    by_cases hk : v = u ∧ s = sid
    · obtain ⟨rfl, rfl⟩ := hk
      rw [findOne_upsert, findOne_upsert]
    · rw [findOne_upsert_other _ _ _ _ _ _ hk, findOne_upsert_other _ _ _ _ _ _ hk]
      exact h.2.2 v s

theorem committed_swap (num : Numeric) (d : Db) (u1 u2 sid : String) (r1 r2 : Int) (hne : u1 ≠ u2) :
    SameRecords (committed num (committed num d u1 sid r1) u2 sid r2)
      (committed num (committed num d u2 sid r2) u1 sid r1) := by
  have hp := upsert_comm d.ratings u1 u2 sid r1 r2 hne
  refine ⟨?_, hp, ?_⟩
  · simp only [committed, storeUpdate_storeUpdate, average_congr num _ _ sid hp]
  · intro v s
    simp only [committed]
    by_cases hk1 : v = u1 ∧ s = sid
    · obtain ⟨rfl, rfl⟩ := hk1
      rw [findOne_upsert, findOne_upsert_other _ _ _ _ _ _ (fun h => hne h.1), findOne_upsert]
    · by_cases hk2 : v = u2 ∧ s = sid
      · obtain ⟨rfl, rfl⟩ := hk2
        rw [findOne_upsert, findOne_upsert_other _ _ _ _ _ _ hk1, findOne_upsert]
      · rw [findOne_upsert_other _ _ _ _ _ _ hk2, findOne_upsert_other _ _ _ _ _ _ hk1,
          findOne_upsert_other _ _ _ _ _ _ hk1, findOne_upsert_other _ _ _ _ _ _ hk2]

theorem foldl_committed_congr (num : Numeric) (sid : String) (subs : List (String × Int)) :
    ∀ d1 d2 : Db, SameRecords d1 d2 →
      SameRecords (subs.foldl (fun d x => committed num d x.1 sid x.2) d1)
        (subs.foldl (fun d x => committed num d x.1 sid x.2) d2) := by
  induction subs with
  | nil => intro d1 d2 h; exact h
  | cons x xs ih =>
    intro d1 d2 h
    exact ih _ _ (committed_congr num d1 d2 x.1 sid x.2 h)

theorem foldl_committed_perm (num : Numeric) (sid : String) {subs1 subs2 : List (String × Int)}
    (hp : List.Perm subs1 subs2) :
    (subs1.map Prod.fst).Nodup → ∀ d1 d2 : Db, SameRecords d1 d2 →
      SameRecords (subs1.foldl (fun d x => committed num d x.1 sid x.2) d1)
        (subs2.foldl (fun d x => committed num d x.1 sid x.2) d2) := by
  induction hp with
  | nil => intro _ d1 d2 h; exact h
  | cons x _ ih =>
    intro hnd d1 d2 h
    simp only [List.map_cons, List.nodup_cons] at hnd
    exact ih hnd.2 _ _ (committed_congr num d1 d2 x.1 sid x.2 h)
  | swap x y l =>
    intro hnd d1 d2 h
    simp only [List.map_cons, List.nodup_cons, List.mem_cons, not_or] at hnd
    simp only [List.foldl_cons]
    apply foldl_committed_congr num
    exact sameRecords_trans (committed_swap num d1 y.1 x.1 sid y.2 x.2 hnd.1.1)
      (committed_congr num _ _ _ _ _ (committed_congr num d1 d2 x.1 sid x.2 h))
  | trans h1 _ ih1 ih2 =>
    intro hnd d1 d2 h
    have hnd2 := (h1.map Prod.fst).nodup_iff.mp hnd
    exact sameRecords_trans (ih1 hnd d1 d2 h) (ih2 hnd2 d2 d2 (sameRecords_refl d2))

theorem run_posts (num : Numeric) (isUUID : String → Bool) (sid : String) (hU : isUUID sid = true)
    (subs : List (String × Int)) :
    ∀ db : Db, (Store.findByPk db.stores sid).isSome →
      (∀ x ∈ subs, 1 ≤ x.2 ∧ x.2 ≤ 5) →
      run num isUUID db (posts sid subs) = subs.foldl (fun d x => committed num d x.1 sid x.2) db ∧
        (Store.findByPk (run num isUUID db (posts sid subs)).stores sid).isSome := by
  induction subs with
  | nil => intro db hS _; exact ⟨rfl, hS⟩
  | cons x xs ih =>
    intro db hS hr
    have hx := hr x (List.mem_cons_self _ _)
    have hstep : run num isUUID db (posts sid (x :: xs)) =
        run num isUUID (committed num db x.1 sid x.2) (posts sid xs) := by
      simp only [run, posts, List.map_cons, List.foldl_cons, handle]
      rw [postRating_ok num isUUID db x.1 sid x.2 hS hU hx]
    rw [hstep]
    exact ih _ (findByPk_committed num db x.1 sid x.2 hS)
      (fun y hy => hr y (List.mem_cons_of_mem _ hy))

theorem aggregateOf_foldl_committed (num : Numeric) (sid : String) (subs : List (String × Int))
    (hne : subs ≠ []) (db : Db) (hS : (Store.findByPk db.stores sid).isSome) :
    aggregateOf (subs.foldl (fun d x => committed num d x.1 sid x.2) db) sid =
      some ((arithmeticMean
        ((ratingsOf (subs.foldl (fun d x => committed num d x.1 sid x.2) db).ratings sid).map
          (fun x => x.rating))).map num.round) := by
  have hkeep : ∀ (l : List (String × Int)) (d : Db), (Store.findByPk d.stores sid).isSome →
      (Store.findByPk (l.foldl (fun d x => committed num d x.1 sid x.2) d).stores sid).isSome := by
    intro l
    induction l with
    | nil => intro d h; exact h
    | cons y ys ih => intro d h; exact ih _ (findByPk_committed num d y.1 sid y.2 h)
  rcases List.eq_nil_or_concat subs with h | ⟨init, x, h⟩
  · exact absurd h hne
  · subst h
    rw [List.concat_eq_append, List.foldl_append]
    simp only [List.foldl_cons, List.foldl_nil]
    rw [aggregateOf_committed num _ _ _ _ (hkeep init db hS), AVG_eq_arithmeticMean]
    simp only [committed, ratingsOf_upsert_same]

/-- A request whose rating is missing, or is a JSON number that is no integer
in 1..5, is answered 400 on either route, with no transaction and the database
unchanged. -/
theorem number_rating_rejected (num : Numeric) (isUUID : String → Bool) (route : Route)
    (fails : Call → Bool) (db : Db) (req : Request)
    (h : req.body.rating = none ∨ ∃ q : ℚ, req.body.rating = some (.scalar (.number q)) ∧
      ¬ ∃ n : Int, 1 ≤ n ∧ n ≤ 5 ∧ q = (n : ℚ)) :
    handle num isUUID route fails db req = ⟨db, 400, none, false⟩ := by
  have hi : isInt 1 5 req.body.rating = false := by
    rcases h with h | ⟨q, hq, hn⟩
    · rw [h]; rfl
    · rw [hq]
      cases hv : isInt 1 5 (some (.scalar (.number q))) with
      | false => rfl
      | true => exact absurd ((isInt_iff q).mp hv) hn
  cases route with
  | post => simp [handle, postRating_eq, hi]
  | put => simp [handle, putRating_eq, hi]

/-! ## The claims -/

/-- C1, as stated, fails: the sample database carries the exact means, and
once a third user has rated store B, whose rows then hold 2, 5 and 1, the store
carries what the database makes of 8/3, whatever its representation; with the
sixteen-digit decimal of the AVG query that is 2.6666666666666667 and not the
mean 8/3. -/
theorem exact_mean_not_preserved :
    MeanInvariant sampleDb ∧
      (∀ num : Numeric,
        aggregateOf (run num uuidShape sampleDb
          [(.post, noFault, ratingRequest "u3" idB 1)]) idB = some (some (num.round (8 / 3)))) ∧
      aggregateOf (run decimal16 uuidShape sampleDb
          [(.post, noFault, ratingRequest "u3" idB 1)]) idB =
        some (some (26666666666666667 / 10000000000000000)) ∧
      ¬ MeanInvariant (run decimal16 uuidShape sampleDb
          [(.post, noFault, ratingRequest "u3" idB 1)]) := by
  have hgen : ∀ num : Numeric,
      aggregateOf (run num uuidShape sampleDb
        [(.post, noFault, ratingRequest "u3" idB 1)]) idB = some (some (num.round (8 / 3))) := by
    intro num
    simp only [run, List.foldl_cons, List.foldl_nil, handle]
    rw [postRating_ok num uuidShape sampleDb "u3" idB 1 (by decide) (by decide) (by decide),
      aggregateOf_committed num sampleDb "u3" idB 1 (by decide)]
    have hcol : (upsert (ratingsOf sampleDb.ratings idB) "u3" idB 1).map (fun x => x.rating) =
        [2, 5, 1] := by decide
    rw [hcol]
    simp only [AVG, List.sum_cons, List.sum_nil, List.length_cons, List.length_nil]
    norm_num
  have hrun : run decimal16 uuidShape sampleDb [(.post, noFault, ratingRequest "u3" idB 1)] =
      ⟨[storeA, { storeB with averageRating := some (26666666666666667 / 10000000000000000) }],
        [⟨"u1", idB, 2⟩, ⟨"u2", idB, 5⟩, ⟨"u3", idB, 1⟩]⟩ := by
    simp only [run, List.foldl_cons, List.foldl_nil, handle]
    rw [postRating_ok decimal16 uuidShape sampleDb "u3" idB 1 (by decide) (by decide)
      (by decide)]
    have h83 : ((2 + (5 + 1) : Int) : ℚ) / (3 : ℚ) = 8 / 3 := by norm_num
    simp [committed, sampleDb, upsert, Store.update, average, ratingsOf, AVG, storeA, storeB,
      idA, idB, decimal16_round_eight_thirds]
  refine ⟨meanInvariant_sampleDb, hgen, ?_, ?_⟩
  · rw [hrun]
    simp [aggregateOf, Store.findByPk, storeA, storeB, idA, idB]
  · rw [hrun]
    intro h
    have h2 := h { storeB with averageRating := some (26666666666666667 / 10000000000000000) }
      (by simp)
    simp [storeB, idB, arithmeticMean] at h2
    norm_num at h2

/-- C1, amended: from a database in which every store carries the mean of its
rating rows as the database represents it (null when it has none), any finite
sequence of rating requests on the two routes, whether they commit or fail,
leaves a database in which every store again carries that representation of the
mean of its rows, or null; and a store whose mean is an integer or a half
carries it exactly. -/
theorem stored_mean_invariant_preserved (num : Numeric) (isUUID : String → Bool) (db : Db)
    (reqs : List (Route × (Call → Bool) × Request)) (h : StoredMeanInvariant num db) :
    StoredMeanInvariant num (run num isUUID db reqs) ∧
      ∀ s ∈ (run num isUUID db reqs).stores, ∀ n : Int,
        arithmeticMean (((run num isUUID db reqs).ratings.filter
            (fun r => decide (r.storeId = s.id))).map (fun r => r.rating)) =
          some ((n : ℚ) / 2) →
        s.averageRating = some ((n : ℚ) / 2) := by
  have hinv := meanInvariant_run num isUUID reqs db h
  refine ⟨hinv, ?_⟩
  intro s hs n hn
  rw [hinv s hs, hn]
  simp [num.half]

/-- Witness of C1 amended on the sample database: a first rating of store A,
then an update of an existing rating of store B. -/
theorem stored_mean_invariant_preserved_witness :
    StoredMeanInvariant decimal16 sampleDb ∧
      StoredMeanInvariant decimal16 (run decimal16 uuidShape sampleDb
        [(.post, noFault, ratingRequest "u1" idA 4), (.put, noFault, ratingRequest "u2" idB 1)]) :=
  ⟨storedMeanInvariant_sampleDb decimal16,
    (stored_mean_invariant_preserved decimal16 uuidShape sampleDb _
      (storedMeanInvariant_sampleDb decimal16)).1⟩

/-- C2: on a store S without rating rows, U1 rating 4 makes the aggregate 4,
then a different user U2 rating 2 makes it 3, then U1 rating 5, through the
create route or through the update route, makes it 7/2, with exactly two
rating rows for S. -/
theorem scenario_two_raters (num : Numeric) (isUUID : String → Bool) (db : Db) (S U1 U2 : String)
    (hS : (Store.findByPk db.stores S).isSome) (hU : isUUID S = true)
    (h0 : ratingsOf db.ratings S = []) (hne : U1 ≠ U2) :
    aggregateOf (postRating num isUUID noFault db (ratingRequest U1 S 4)).db S = some (some 4) ∧
    aggregateOf (postRating num isUUID noFault
        (postRating num isUUID noFault db (ratingRequest U1 S 4)).db
        (ratingRequest U2 S 2)).db S = some (some 3) ∧
    aggregateOf (postRating num isUUID noFault
        (postRating num isUUID noFault
          (postRating num isUUID noFault db (ratingRequest U1 S 4)).db
          (ratingRequest U2 S 2)).db
        (ratingRequest U1 S 5)).db S = some (some (7 / 2)) ∧
    (ratingsOf (postRating num isUUID noFault
        (postRating num isUUID noFault
          (postRating num isUUID noFault db (ratingRequest U1 S 4)).db
          (ratingRequest U2 S 2)).db
        (ratingRequest U1 S 5)).db.ratings S).length = 2 ∧
    aggregateOf (putRating num noFault
        (postRating num isUUID noFault
          (postRating num isUUID noFault db (ratingRequest U1 S 4)).db
          (ratingRequest U2 S 2)).db
        (ratingRequest U1 S 5)).db S = some (some (7 / 2)) ∧
    (ratingsOf (putRating num noFault
        (postRating num isUUID noFault
          (postRating num isUUID noFault db (ratingRequest U1 S 4)).db
          (ratingRequest U2 S 2)).db
        (ratingRequest U1 S 5)).db.ratings S).length = 2 := by
  have hne2 : ¬ U2 = U1 := fun h => hne h.symm
  have e1 := postRating_ok num isUUID db U1 S 4 hS hU (by decide)
  have hS1 := findByPk_committed num db U1 S 4 hS
  have r1 : ratingsOf (committed num db U1 S 4).ratings S = [⟨U1, S, 4⟩] := by
    simp [committed, ratingsOf_upsert_same, h0, upsert]
  have e2 := postRating_ok num isUUID (committed num db U1 S 4) U2 S 2 hS1 hU (by decide)
  have hS2 := findByPk_committed num (committed num db U1 S 4) U2 S 2 hS1
  have r2 : ratingsOf (committed num (committed num db U1 S 4) U2 S 2).ratings S =
      [⟨U1, S, 4⟩, ⟨U2, S, 2⟩] := by
    have : (committed num (committed num db U1 S 4) U2 S 2).ratings =
        upsert (committed num db U1 S 4).ratings U2 S 2 := rfl
    rw [this, ratingsOf_upsert_same, r1]
    simp [upsert, hne]
  have e3 := postRating_ok num isUUID (committed num (committed num db U1 S 4) U2 S 2) U1 S 5 hS2 hU
    (by decide)
  have hf : (Rating.findOne (committed num (committed num db U1 S 4) U2 S 2).ratings U1 S).isSome := by
    rw [← findOne_ratingsOf, r2]
    simp [Rating.findOne, List.find?]
  have e4 := putRating_ok num (committed num (committed num db U1 S 4) U2 S 2) U1 S 5 hf (by decide)
  have r3 : ratingsOf (committed num (committed num (committed num db U1 S 4) U2 S 2) U1 S 5).ratings S =
      [⟨U1, S, 5⟩, ⟨U2, S, 2⟩] := by
    have : (committed num (committed num (committed num db U1 S 4) U2 S 2) U1 S 5).ratings =
        upsert (committed num (committed num db U1 S 4) U2 S 2).ratings U1 S 5 := rfl
    rw [this, ratingsOf_upsert_same, r2]
    simp [upsert]
  have a1 : aggregateOf (committed num db U1 S 4) S = some (some 4) := by
    rw [aggregateOf_committed num _ _ _ _ hS, h0]
    simp only [upsert, List.map_cons, List.map_nil, AVG]
    rw [round_eq_of_half num _ 8 (by norm_num)]
    norm_num
  have a2 : aggregateOf (committed num (committed num db U1 S 4) U2 S 2) S = some (some 3) := by
    rw [aggregateOf_committed num _ _ _ _ hS1, r1]
    simp only [upsert, hne, false_and, if_false, List.map_cons, List.map_nil, AVG]
    rw [round_eq_of_half num _ 6 (by norm_num)]
    norm_num
  have a3 : aggregateOf (committed num (committed num (committed num db U1 S 4) U2 S 2) U1 S 5) S =
      some (some (7 / 2)) := by
    rw [aggregateOf_committed num _ _ _ _ hS2, r2]
    simp only [upsert, true_and, and_self, if_true, List.map_cons, List.map_nil, AVG]
    rw [round_eq_of_half num _ 7 (by norm_num)]
    norm_num
  rw [e1, e2, e3, e4]
  exact ⟨a1, a2, a3, by rw [r3]; rfl, a3, by rw [r3]; rfl⟩

/-- Witness of C2 on the sample database, with store A as S. -/
theorem scenario_two_raters_witness :
    aggregateOf (putRating decimal16 noFault
        (postRating decimal16 uuidShape noFault
          (postRating decimal16 uuidShape noFault sampleDb (ratingRequest "u1" idA 4)).db
          (ratingRequest "u2" idA 2)).db
        (ratingRequest "u1" idA 5)).db idA = some (some (7 / 2)) :=
  (scenario_two_raters decimal16 uuidShape sampleDb idA "u1" "u2" (by decide) (by decide) (by decide)
    (by decide)).2.2.2.2.1

/-- C3: from a table with at most one rating row per (userId, storeId) pair,
any sequence of rating requests leaves at most one row per pair; and when the
same user posts to the same existing store twice, with ratings r1 then r2,
exactly one row of that pair exists afterwards and it carries r2. -/
theorem unique_pairs_preserved (num : Numeric) (isUUID : String → Bool) (db : Db)
    (reqs : List (Route × (Call → Bool) × Request)) (h : UniquePairs db.ratings) :
    UniquePairs (run num isUUID db reqs).ratings ∧
    ∀ (u S : String) (r1 r2 : Int), (Store.findByPk db.stores S).isSome → isUUID S = true →
      (1 ≤ r1 ∧ r1 ≤ 5) → (1 ≤ r2 ∧ r2 ≤ 5) →
      (postRating num isUUID noFault (postRating num isUUID noFault db (ratingRequest u S r1)).db
          (ratingRequest u S r2)).db.ratings.filter
          (fun x => decide (x.userId = u) && decide (x.storeId = S)) = [⟨u, S, r2⟩] := by
  refine ⟨uniquePairs_run num isUUID reqs db h, ?_⟩
  intro u S r1 r2 hS hU h1 h2
  rw [postRating_ok num isUUID db u S r1 hS hU h1,
    postRating_ok num isUUID _ u S r2 (findByPk_committed num db u S r1 hS) hU h2, committed_committed]
  exact filter_key_upsert db.ratings u S r2 (h u S)

/-- Witness of C3 on the sample database: a third user rates store B, and
user u1 re-rates it twice. -/
theorem unique_pairs_preserved_witness :
    UniquePairs sampleDb.ratings ∧
      UniquePairs (run decimal16 uuidShape sampleDb [(.post, noFault, ratingRequest "u3" idB 3)]).ratings ∧
      (postRating decimal16 uuidShape noFault (postRating decimal16 uuidShape noFault sampleDb
          (ratingRequest "u1" idB 3)).db (ratingRequest "u1" idB 4)).db.ratings.filter
          (fun x => decide (x.userId = "u1") && decide (x.storeId = idB)) = [⟨"u1", idB, 4⟩] :=
  have hw := unique_pairs_preserved decimal16 uuidShape sampleDb
    [(.post, noFault, ratingRequest "u3" idB 3)] uniquePairs_sampleDb
  ⟨uniquePairs_sampleDb, hw.1, hw.2 "u1" idB 3 4 (by decide) (by decide) (by decide) (by decide)⟩

/-- C4: when a rating request, on either route, has opened its transaction and
a call inside it throws (the upsert, the AVG query, the write of averageRating,
the commit), the committed database is the one before the request and the
reply is status 500. -/
theorem failed_transaction_rolls_back (num : Numeric) (isUUID : String → Bool) (route : Route)
    (fails : Call → Bool) (db : Db) (req : Request)
    (hopen : (handle num isUUID route fails db req).txOpened = true)
    (hfail : txThrows route fails db req = true) :
    (handle num isUUID route fails db req).db = db ∧
      (handle num isUUID route fails db req).status = 500 := by
  cases route with
  | post =>
    simp only [handle, postRating_eq, txThrows, serverError] at hopen hfail ⊢
    rw [hfail] at hopen ⊢
    split_ifs at hopen ⊢ <;> first | exact ⟨rfl, rfl⟩ | contradiction
  | put =>
    simp only [handle, putRating_eq, txThrows, serverError] at hopen hfail ⊢
    rw [hfail] at hopen ⊢
    split_ifs at hopen ⊢ <;> first | exact ⟨rfl, rfl⟩ | contradiction

/-- Witness of C4: the AVG query of a first rating of store A throws. -/
theorem failed_transaction_rolls_back_witness :
    txThrows .post (fun c => decide (c = .avgQuery)) sampleDb (ratingRequest "u1" idA 4) = true ∧
      (handle decimal16 uuidShape .post (fun c => decide (c = .avgQuery)) sampleDb
          (ratingRequest "u1" idA 4)).db = sampleDb ∧
      (handle decimal16 uuidShape .post (fun c => decide (c = .avgQuery)) sampleDb
          (ratingRequest "u1" idA 4)).status = 500 :=
  ⟨by decide,
    failed_transaction_rolls_back decimal16 uuidShape .post (fun c => decide (c = .avgQuery)) sampleDb
      (ratingRequest "u1" idA 4) (by decide) (by decide)⟩

/-- C5: posting the same request a second time leaves exactly the outcome of
posting it once, for every database and request, and so does a POST that
follows a failed, rolled-back attempt; for an existing store and a rating in
1..5 (a value that passes the validator and that the column can hold) that
outcome is the committed upsert with status 200, so the rating is counted
once. -/
theorem post_retry_idempotent (num : Numeric) (isUUID : String → Bool) (fails : Call → Bool)
    (db : Db)
    (req : Request) :
    postRating num isUUID noFault (postRating num isUUID noFault db req).db req =
        postRating num isUUID noFault db req ∧
    ((postRating num isUUID fails db req).status ≠ 200 →
      postRating num isUUID noFault (postRating num isUUID fails db req).db req =
        postRating num isUUID noFault db req) ∧
    (bodyIsUUID isUUID req.body.storeId = true → isInt 1 5 req.body.rating = true →
      (columnValue (req.body.rating.getD 0)).isSome →
      (Store.findByPk db.stores (req.body.storeId.getD "")).isSome →
      postRating num isUUID noFault db req =
        ⟨committed num db req.user (req.body.storeId.getD "") (req.body.rating.getD 0).num, 200,
          some "Rating submitted successfully", true⟩) := by
  refine ⟨postRating_twice num isUUID db req, ?_, ?_⟩
  · intro hne
    have := handle_failure_db num isUUID .post fails db req hne
    simp only [handle] at this
    rw [this]
  · intro hu hi hc hS
    have hS2 : (Store.findByPk db.stores (req.body.storeId.getD "")).isNone = false := by
      cases hf : Store.findByPk db.stores (req.body.storeId.getD "") with
      | none => simp [hf] at hS
      | some s => rfl
    have hc2 : (columnValue (req.body.rating.getD 0)).isNone = false := by
      cases hv : columnValue (req.body.rating.getD 0) with
      | none => simp [hv] at hc
      | some r => rfl
    simp [postRating_noFault, hu, hi, hS2, hc2]

/-- Witness of C5 on the sample database: a first rating of store A, retried
after an attempt whose commit failed. -/
theorem post_retry_idempotent_witness :
    postRating decimal16 uuidShape noFault (postRating decimal16 uuidShape (fun c => decide (c = .commit)) sampleDb
        (ratingRequest "u1" idA 4)).db (ratingRequest "u1" idA 4) =
      postRating decimal16 uuidShape noFault sampleDb (ratingRequest "u1" idA 4) ∧
    postRating decimal16 uuidShape noFault sampleDb (ratingRequest "u1" idA 4) =
      ⟨committed decimal16 sampleDb "u1" idA 4, 200, some "Rating submitted successfully", true⟩ :=
  ⟨(post_retry_idempotent decimal16 uuidShape (fun c => decide (c = .commit)) sampleDb
      (ratingRequest "u1" idA 4)).2.1 (by decide),
    (post_retry_idempotent decimal16 uuidShape (fun c => decide (c = .commit)) sampleDb
      (ratingRequest "u1" idA 4)).2.2 (by decide) (by decide) (by decide) (by decide)⟩

/-- C6, as stated, fails: for a user without a rating row of store A the update
route leaves the database alone where the create route inserts the row. -/
theorem put_differs_from_post_without_row :
    ¬ ((putRating decimal16 noFault sampleDb (ratingRequest "u1" idA 4)).db =
        (postRating decimal16 uuidShape noFault sampleDb (ratingRequest "u1" idA 4)).db) := by
  decide

/-- C6, amended: for an existing store with a well-formed id and a rating in
1..5, the two routes leave the same database when the user already has a row
for the store; when the user has none, the update route replies 404 and leaves
the database unchanged while the create route commits the upsert. -/
theorem put_agrees_with_post_on_existing_row (num : Numeric) (isUUID : String → Bool) (db : Db)
    (u S : String) (r : Int) (hS : (Store.findByPk db.stores S).isSome)
    (hU : isUUID S = true) (hr : 1 ≤ r ∧ r ≤ 5) :
    ((Rating.findOne db.ratings u S).isSome →
      (putRating num noFault db (ratingRequest u S r)).db =
          (postRating num isUUID noFault db (ratingRequest u S r)).db ∧
        (putRating num noFault db (ratingRequest u S r)).status = 200 ∧
        (postRating num isUUID noFault db (ratingRequest u S r)).status = 200) ∧
    (Rating.findOne db.ratings u S = none →
      putRating num noFault db (ratingRequest u S r) = ⟨db, 404, some "Rating not found", true⟩ ∧
        (postRating num isUUID noFault db (ratingRequest u S r)).db = committed num db u S r) := by
  constructor
  · intro hf
    rw [putRating_ok num db u S r hf hr, postRating_ok num isUUID db u S r hS hU hr]
    exact ⟨rfl, rfl, rfl⟩
  · intro hf
    rw [postRating_ok num isUUID db u S r hS hU hr, putRating_eq]
    have hi := isInt_intCast r
    rw [decide_eq_true hr] at hi
    simp [ratingRequest, hi, noFault, putThrows, hf]

/-- Witness of C6 amended: user u1 re-rates store B through either route. -/
theorem put_agrees_with_post_on_existing_row_witness :
    (putRating decimal16 noFault sampleDb (ratingRequest "u1" idB 4)).db =
      (postRating decimal16 uuidShape noFault sampleDb (ratingRequest "u1" idB 4)).db :=
  ((put_agrees_with_post_on_existing_row decimal16 uuidShape sampleDb "u1" idB 4 (by decide) (by decide)
    (by decide)).1 (by decide)).1

/-- C7 at the failing input: the rating `[]` is no integer in 1..5, yet the
rating validator lets it through, having no element to reject. The create
route, on the existing store A, opens its transaction and replies 500 when the
write of the rating throws; the update route does the same for a user with a
rating row, and replies 404 after opening its transaction for a user without
one. The out-of-range rating 6 gets what the claim asks for every such
request: 400 and no transaction. The database is unchanged throughout. -/
theorem empty_array_rating_opens_transaction :
    isInt 1 5 (some (.array [])) = true ∧
      postRating decimal16 uuidShape noFault sampleDb ⟨"u1", "", ⟨some idA, some (.array []), []⟩⟩ =
        ⟨sampleDb, 500, some "Server error", true⟩ ∧
      putRating decimal16 noFault sampleDb ⟨"u1", idB, ⟨none, some (.array []), []⟩⟩ =
        ⟨sampleDb, 500, some "Server error", true⟩ ∧
      putRating decimal16 noFault sampleDb ⟨"u1", idA, ⟨none, some (.array []), []⟩⟩ =
        ⟨sampleDb, 404, some "Rating not found", true⟩ ∧
      postRating decimal16 uuidShape noFault sampleDb ⟨"u1", "", ⟨some idA, some 6, []⟩⟩ =
        ⟨sampleDb, 400, none, false⟩ :=
  ⟨by decide, rfl, rfl, rfl, rfl⟩

/-- C8, as stated, fails: a POST with the valid rating 3 whose storeId names no
store, being no identifier at all, is answered 400, not 404. -/
theorem post_unknown_store_not_always_404 :
    isInt 1 5 (some 3) = true ∧
      Store.findByPk sampleDb.stores "no-such-store" = none ∧
      ¬ ((postRating decimal16 uuidShape noFault sampleDb
          ⟨"u1", "", ⟨some "no-such-store", some 3, []⟩⟩).status = 404) := by
  decide

/-- C8, amended: a POST with a valid rating whose storeId references no store
opens no transaction and leaves the database unchanged, whatever call fails;
when no call fails the reply is 404 'Store not found' for a well-formed
storeId and the 400 of the validators for a malformed or missing one. -/
theorem post_unknown_store_rejected (num : Numeric) (isUUID : String → Bool) (fails : Call → Bool)
    (db : Db)
    (req : Request) (hr : isInt 1 5 req.body.rating = true)
    (hno : ∀ sid : String, req.body.storeId = some sid → Store.findByPk db.stores sid = none) :
    (postRating num isUUID fails db req).db = db ∧
      (postRating num isUUID fails db req).txOpened = false ∧
      postRating num isUUID noFault db req =
        if bodyIsUUID isUUID req.body.storeId then ⟨db, 404, some "Store not found", false⟩
        else ⟨db, 400, none, false⟩ := by
  have hn : bodyIsUUID isUUID req.body.storeId = true →
      (Store.findByPk db.stores (req.body.storeId.getD "")).isNone = true := by
    intro hb
    cases hs : req.body.storeId with
    | none => rw [hs] at hb; simp [bodyIsUUID] at hb
    | some sid => simp [hno sid hs]
  cases hb : bodyIsUUID isUUID req.body.storeId
  · simp [postRating_eq, hb]
  · have hn2 := hn hb
    cases hf : fails .storeFindByPk <;>
      simp [postRating_eq, hb, hr, hn2, hf, noFault, serverError]

/-- Witness of C8 amended: a well-formed identifier that names no store. -/
theorem post_unknown_store_rejected_witness :
    postRating decimal16 uuidShape noFault sampleDb
        (ratingRequest "u1" "0c0c0c0c-0000-4000-8000-00000000000c" 3) =
      ⟨sampleDb, 404, some "Store not found", false⟩ :=
  (post_unknown_store_rejected decimal16 uuidShape noFault sampleDb
    (ratingRequest "u1" "0c0c0c0c-0000-4000-8000-00000000000c" 3) (by decide)
    (by intro sid h; cases h; decide)).2.2

/-- C9 at the failing input: the path segment `not-a-uuid` is no identifier,
the create route rejects it in the body with 400 before any transaction, and
the update route takes it from the path, opens a transaction and replies 404. -/
theorem put_malformed_id_opens_transaction :
    uuidShape "not-a-uuid" = false ∧
      postRating decimal16 uuidShape noFault sampleDb ⟨"u1", "", ⟨some "not-a-uuid", some 3, []⟩⟩ =
        ⟨sampleDb, 400, none, false⟩ ∧
      putRating decimal16 noFault sampleDb ⟨"u1", "not-a-uuid", ⟨none, some 3, []⟩⟩ =
        ⟨sampleDb, 404, some "Rating not found", true⟩ :=
  ⟨by decide, rfl, rfl⟩

/-- C10: two requests on the same route by the same authenticated principal,
with the same storeId and rating, that differ in other body fields only, have
the same outcome; and every rating row that is not the one keyed by the
principal and the addressed store is left as it was. -/
theorem rater_is_authenticated_principal (num : Numeric) (isUUID : String → Bool) (route : Route)
    (fails : Call → Bool) (db : Db) (req1 req2 : Request) (hu : req1.user = req2.user)
    (hp : req1.paramStoreId = req2.paramStoreId) (hs : req1.body.storeId = req2.body.storeId)
    (hr : req1.body.rating = req2.body.rating) :
    handle num isUUID route fails db req1 = handle num isUUID route fails db req2 ∧
      (handle num isUUID route fails db req1).db.ratings.filter
          (fun x => !(decide (x.userId = req1.user) &&
            decide (x.storeId = targetStore route req1))) =
        db.ratings.filter
          (fun x => !(decide (x.userId = req1.user) &&
            decide (x.storeId = targetStore route req1))) := by
  constructor
  · obtain ⟨u1, p1, s1, r1, o1⟩ := req1
    obtain ⟨u2, p2, s2, r2, o2⟩ := req2
    simp only at hu hp hs hr
    subst hu hp hs hr
    cases route <;> rfl
  · rcases handle_db num isUUID route fails db req1 with h | h
    · rw [h]
    · rw [h]
      exact filter_upsert_of_not _ db.ratings _ _ _ (by intro a b h1 h2; simp [h1, h2])
        (by simp)

/-- Witness of C10: a body that also carries a `userId` field naming u2. -/
theorem rater_is_authenticated_principal_witness :
    handle decimal16 uuidShape .post noFault sampleDb ⟨"u1", "", ⟨some idB, some 4, []⟩⟩ =
      handle decimal16 uuidShape .post noFault sampleDb
        ⟨"u1", "", ⟨some idB, some 4, [("userId", "u2")]⟩⟩ :=
  (rater_is_authenticated_principal decimal16 uuidShape .post noFault sampleDb
    ⟨"u1", "", ⟨some idB, some 4, []⟩⟩ ⟨"u1", "", ⟨some idB, some 4, [("userId", "u2")]⟩⟩
    rfl rfl rfl rfl).1

/-- C15, as stated, fails: a first rating of store A whose commit throws is
answered 500 with nothing committed, although the same request run again on
the same database is answered 200; the handler does not run it again. -/
theorem transient_failure_is_not_retried :
    postRating decimal16 uuidShape (fun c => decide (c = .commit)) sampleDb (ratingRequest "u1" idA 4) =
        ⟨sampleDb, 500, some "Server error", true⟩ ∧
      (postRating decimal16 uuidShape noFault sampleDb (ratingRequest "u1" idA 4)).status = 200 :=
  ⟨rfl, by rw [postRating_ok decimal16 uuidShape sampleDb "u1" idA 4 (by decide) (by decide) (by decide)]⟩

/-- C15, amended: there is no internal retry. When a call inside the open
transaction of a rating request throws, the handler rolls back and replies 500
after that single attempt, the database unchanged; the caller who sends the
request again gets exactly the outcome of a single run. -/
theorem transaction_failure_surfaced_at_once (num : Numeric) (isUUID : String → Bool)
    (route : Route)
    (fails : Call → Bool) (db : Db) (req : Request)
    (hopen : (handle num isUUID route fails db req).txOpened = true)
    (hfail : txThrows route fails db req = true) :
    handle num isUUID route fails db req = serverError db true ∧
      handle num isUUID route noFault (handle num isUUID route fails db req).db req =
        handle num isUUID route noFault db req := by
  have key : handle num isUUID route fails db req = serverError db true := by
    cases route with
    | post =>
      simp only [handle, postRating_eq, txThrows, serverError] at hopen hfail ⊢
      rw [hfail] at hopen ⊢
      split_ifs at hopen ⊢ <;> first | rfl | contradiction
    | put =>
      simp only [handle, putRating_eq, txThrows, serverError] at hopen hfail ⊢
      rw [hfail] at hopen ⊢
      split_ifs at hopen ⊢ <;> first | rfl | contradiction
  refine ⟨key, ?_⟩
  rw [key]
  rfl

/-- Witness of C15 amended: the commit of an update of u2's rating of store B
throws. -/
theorem transaction_failure_surfaced_at_once_witness :
    handle decimal16 uuidShape .put (fun c => decide (c = .commit)) sampleDb (ratingRequest "u2" idB 1) =
      serverError sampleDb true :=
  (transaction_failure_surfaced_at_once decimal16 uuidShape .put (fun c => decide (c = .commit)) sampleDb
    (ratingRequest "u2" idB 1) (by decide) (by decide)).1

/-- C16, as stated, fails: store B of the sample database carries 7/2, the mean
of its two rows of sum 7; a third user rating it 3 succeeds, and the stored
aggregate is the sixteen-digit decimal 3.3333333333333333 of the AVG query, not
the incremental value (7 + 3) / (2 + 1) of exact rational arithmetic. -/
theorem fresh_average_not_exact_incremental :
    aggregateOf sampleDb idB = some (some (7 / 2)) ∧
      Rating.findOne sampleDb.ratings "u3" idB = none ∧
      (handle decimal16 uuidShape .post noFault sampleDb (ratingRequest "u3" idB 3)).status =
        200 ∧
      aggregateOf (handle decimal16 uuidShape .post noFault sampleDb
          (ratingRequest "u3" idB 3)).db idB =
        some (some (33333333333333333 / 10000000000000000)) ∧
      ¬ (aggregateOf (handle decimal16 uuidShape .post noFault sampleDb
          (ratingRequest "u3" idB 3)).db idB =
        some (some (incrementalMean 7 2 none 3))) := by
  have hround : decimal16.round (10 / 3) = 33333333333333333 / 10000000000000000 := by
    have hfl : ⌊(10 / 3 : ℚ) * 10 ^ 16 + 1 / 2⌋ = 33333333333333333 := by
      rw [Int.floor_eq_iff]
      constructor <;> norm_num
    simp only [decimal16, roundPlaces]
    rw [if_pos (by norm_num), hfl]
    norm_num
  have hpost : handle decimal16 uuidShape .post noFault sampleDb (ratingRequest "u3" idB 3) =
      ⟨committed decimal16 sampleDb "u3" idB 3, 200, some "Rating submitted successfully",
        true⟩ := by
    rw [handle, postRating_ok decimal16 uuidShape sampleDb "u3" idB 3 (by decide) (by decide)
      (by decide)]
  have hagg : aggregateOf (committed decimal16 sampleDb "u3" idB 3) idB =
      some (some (33333333333333333 / 10000000000000000)) := by
    rw [aggregateOf_committed decimal16 sampleDb "u3" idB 3 (by decide)]
    have h103 : ((2 + (5 + 3) : Int) : ℚ) / ((3 : Nat) : ℚ) = 10 / 3 := by norm_num
    simp only [sampleDb, ratingsOf, idB, List.filter_cons, decide_True, if_true,
      List.filter_nil, upsert, List.map_cons, List.map_nil, AVG, List.sum_cons, List.sum_nil,
      List.length_cons, List.length_nil]
    simp only [show ¬ ("u1" = "u3" ∧ True) by decide, show ¬ ("u2" = "u3" ∧ True) by decide,
      if_false, and_true, List.map_cons, List.map_nil, List.sum_cons, List.sum_nil,
      List.length_cons, List.length_nil]
    norm_num
    rw [← hround]
  refine ⟨rfl, by decide, by rw [hpost], by rw [hpost]; exact hagg, ?_⟩
  rw [hpost, hagg]
  simp only [incrementalMean, Option.some.injEq]
  norm_num

/-- C16, amended: after a successful rating request on an existing store with n
rating rows of sum s, the stored aggregate, computed by a fresh AVG over all
rows, is the incremental value as the database represents it: that of
(s + r) / (n + 1), with n + 1 rows, when the user had no row for the store, that
of (s - r_old + r) / n, with n rows, when the user's row carried r_old; and it
is the incremental value itself when that is an integer or a half. -/
theorem fresh_average_refines_incremental (num : Numeric) (isUUID : String → Bool)
    (route : Route) (db : Db) (req : Request)
    (hok : (handle num isUUID route noFault db req).status = 200)
    (hS : (Store.findByPk db.stores (targetStore route req)).isSome) :
    aggregateOf (handle num isUUID route noFault db req).db (targetStore route req) =
        some (some (num.round (incrementalMean
          ((ratingsOf db.ratings (targetStore route req)).map (fun x => x.rating)).sum
          (ratingsOf db.ratings (targetStore route req)).length
          ((Rating.findOne db.ratings req.user (targetStore route req)).map (fun x => x.rating))
          (req.body.rating.getD 0).num))) ∧
      (ratingsOf (handle num isUUID route noFault db req).db.ratings
          (targetStore route req)).length =
        (match Rating.findOne db.ratings req.user (targetStore route req) with
        | none => (ratingsOf db.ratings (targetStore route req)).length + 1
        | some _ => (ratingsOf db.ratings (targetStore route req)).length) ∧
      ∀ n : Int,
        incrementalMean
            ((ratingsOf db.ratings (targetStore route req)).map (fun x => x.rating)).sum
            (ratingsOf db.ratings (targetStore route req)).length
            ((Rating.findOne db.ratings req.user (targetStore route req)).map
              (fun x => x.rating))
            (req.body.rating.getD 0).num = (n : ℚ) / 2 →
          aggregateOf (handle num isUUID route noFault db req).db (targetStore route req) =
            some (some ((n : ℚ) / 2)) := by
  have main : aggregateOf (handle num isUUID route noFault db req).db (targetStore route req) =
        some (some (num.round (incrementalMean
          ((ratingsOf db.ratings (targetStore route req)).map (fun x => x.rating)).sum
          (ratingsOf db.ratings (targetStore route req)).length
          ((Rating.findOne db.ratings req.user (targetStore route req)).map (fun x => x.rating))
          (req.body.rating.getD 0).num))) ∧
      (ratingsOf (handle num isUUID route noFault db req).db.ratings
          (targetStore route req)).length =
        (match Rating.findOne db.ratings req.user (targetStore route req) with
        | none => (ratingsOf db.ratings (targetStore route req)).length + 1
        | some _ => (ratingsOf db.ratings (targetStore route req)).length) := by
    rw [handle_success num isUUID route db req hok, aggregateOf_committed num _ _ _ _ hS]
    have hlen : (ratingsOf (committed num db req.user (targetStore route req)
        (req.body.rating.getD 0).num).ratings (targetStore route req)) =
        upsert (ratingsOf db.ratings (targetStore route req)) req.user (targetStore route req)
          (req.body.rating.getD 0).num := ratingsOf_upsert_same _ _ _ _
    rw [hlen, AVG_eq_arithmeticMean]
    have hf := findOne_ratingsOf db.ratings req.user (targetStore route req)
    cases hx : Rating.findOne db.ratings req.user (targetStore route req) with
    | none =>
      rw [hx] at hf
      rw [← append_eq_upsert _ _ _ _ hf]
      simp [arithmeticMean, incrementalMean]
    | some x =>
      rw [hx] at hf
      have hsome : (Rating.findOne (ratingsOf db.ratings (targetStore route req)) req.user
          (targetStore route req)).isSome := by rw [hf]; rfl
      have hl := length_upsert_of_found _ _ _ (req.body.rating.getD 0).num hsome
      have hsum := sum_upsert_of_found _ _ _ (req.body.rating.getD 0).num x hf
      have hne : (ratingsOf db.ratings (targetStore route req)).length ≠ 0 := by
        intro h0
        rw [List.length_eq_zero] at h0
        rw [h0] at hf
        simp [Rating.findOne] at hf
      simp only [arithmeticMean, List.length_map, hl, hsum, hne, if_false, incrementalMean,
        Option.map_some', and_true]
  refine ⟨main.1, main.2, fun n hn => ?_⟩
  rw [main.1, hn, num.half]

/-- Witness of C16 amended: u1, whose row of store B carries 2, rates it 4; the
two rows of sum 7 give (7 - 2 + 4) / 2, which is a half and is stored as it is. -/
theorem fresh_average_refines_incremental_witness :
    aggregateOf (handle decimal16 uuidShape .post noFault sampleDb
        (ratingRequest "u1" idB 4)).db idB =
      some (some (decimal16.round (incrementalMean 7 2 (some 2) 4))) :=
  (fresh_average_refines_incremental decimal16 uuidShape .post sampleDb
    (ratingRequest "u1" idB 4)
    (by rw [handle, postRating_ok decimal16 uuidShape sampleDb "u1" idB 4 (by decide)
      (by decide) (by decide)])
    (by decide)).1

/-- C20, as stated, fails in its last part: in a database where store B has the
rows 2, 5 and 1, the user u1 updates their 2 to 1; the update succeeds, and
store B then carries the sixteen-digit decimal 2.3333333333333333 of the AVG
query, not the mean 7/3 of its rows 1, 5 and 1. -/
theorem put_existing_rating_mean_not_exact :
    (putRating decimal16 noFault ratedThrice (ratingRequest "u1" idB 1)).status = 200 ∧
      (ratingsOf (putRating decimal16 noFault ratedThrice (ratingRequest "u1" idB 1)).db.ratings
          idB).map (fun r => r.rating) = [1, 5, 1] ∧
      aggregateOf (putRating decimal16 noFault ratedThrice (ratingRequest "u1" idB 1)).db idB =
        some (some (23333333333333333 / 10000000000000000)) ∧
      ¬ (aggregateOf (putRating decimal16 noFault ratedThrice (ratingRequest "u1" idB 1)).db idB =
          some (arithmeticMean
            ((ratingsOf (putRating decimal16 noFault ratedThrice
              (ratingRequest "u1" idB 1)).db.ratings idB).map (fun r => r.rating)))) := by
  have hput : putRating decimal16 noFault ratedThrice (ratingRequest "u1" idB 1) =
      ⟨committed decimal16 ratedThrice "u1" idB 1, 200, some "Rating updated successfully",
        true⟩ := putRating_ok decimal16 ratedThrice "u1" idB 1 (by decide) (by decide)
  have hrows : (ratingsOf (committed decimal16 ratedThrice "u1" idB 1).ratings idB).map
      (fun r => r.rating) = [1, 5, 1] := by decide
  have hagg : aggregateOf (committed decimal16 ratedThrice "u1" idB 1) idB =
      some (some (23333333333333333 / 10000000000000000)) := by
    rw [aggregateOf_committed decimal16 ratedThrice "u1" idB 1 (by decide)]
    have hcol : (upsert (ratingsOf ratedThrice.ratings idB) "u1" idB 1).map (fun x => x.rating) =
        [1, 5, 1] := by decide
    rw [hcol]
    simp only [AVG, List.sum_cons, List.sum_nil, List.length_cons, List.length_nil]
    rw [decimal16_round_of_floor _ 23333333333333333 (by norm_num) (by norm_num)
      (by norm_num)]
    norm_num
  rw [hput]
  refine ⟨rfl, hrows, hagg, ?_⟩
  rw [hagg, hrows]
  simp only [arithmeticMean, Option.some.injEq]
  norm_num

/-- C20, amended: a PUT with a valid rating by a caller without a rating row for
the store is answered 404 'Rating not found' and leaves the database unchanged;
when the row exists and the rating can be stored the reply is 200, the row
carries the new rating, the number of rows is the same, and every store row
with that id carries the mean of the store's ratings as the database
represents it. -/
theorem put_missing_rating_changes_nothing (num : Numeric) (db : Db) (req : Request)
    (hr : isInt 1 5 req.body.rating = true) :
    (Rating.findOne db.ratings req.user req.paramStoreId = none →
      putRating num noFault db req = ⟨db, 404, some "Rating not found", true⟩) ∧
    (∀ x : Rating, Rating.findOne db.ratings req.user req.paramStoreId = some x →
      (columnValue (req.body.rating.getD 0)).isSome →
      (putRating num noFault db req).status = 200 ∧
      Rating.findOne (putRating num noFault db req).db.ratings req.user req.paramStoreId =
        some { x with rating := (req.body.rating.getD 0).num } ∧
      (putRating num noFault db req).db.ratings.length = db.ratings.length ∧
      ∀ s ∈ (putRating num noFault db req).db.stores, s.id = req.paramStoreId →
        s.averageRating = (arithmeticMean
          (((putRating num noFault db req).db.ratings.filter
            (fun r => decide (r.storeId = req.paramStoreId))).map (fun r => r.rating))).map
              num.round) := by
  constructor
  · intro hf
    rw [putRating_eq]
    simp [hr, noFault, putThrows, hf]
  · intro x hf hc
    have hc2 : (columnValue (req.body.rating.getD 0)).isNone = false := by
      cases hv : columnValue (req.body.rating.getD 0) with
      | none => simp [hv] at hc
      | some r => rfl
    have hput : putRating num noFault db req =
        ⟨committed num db req.user req.paramStoreId (req.body.rating.getD 0).num, 200,
          some "Rating updated successfully", true⟩ := by
      rw [putRating_eq]
      simp [hr, noFault, putThrows, hf, hc2]
    obtain ⟨hu, hs⟩ := findOne_key hf
    rw [hput]
    refine ⟨rfl, ?_, ?_, ?_⟩
    · simp only [committed, findOne_upsert]
      rw [← hu, ← hs]
    · simp only [committed]
      exact length_upsert_of_found _ _ _ _ (by rw [hf]; rfl)
    · intro s hmem hid
      simp only [committed] at hmem ⊢
      rw [mem_storeUpdate_average _ _ _ s hmem hid, ← AVG_eq_arithmeticMean]
      rfl

/-- Witness of C20 amended: u2 updates the rating of store B; u1 has no row for store A. -/
theorem put_missing_rating_changes_nothing_witness :
    putRating decimal16 noFault sampleDb (ratingRequest "u1" idA 3) =
        ⟨sampleDb, 404, some "Rating not found", true⟩ ∧
      (putRating decimal16 noFault sampleDb (ratingRequest "u2" idB 3)).status = 200 :=
  ⟨(put_missing_rating_changes_nothing decimal16 sampleDb (ratingRequest "u1" idA 3) (by decide)).1
      (by decide),
    ((put_missing_rating_changes_nothing decimal16 sampleDb (ratingRequest "u2" idB 3) (by decide)).2
      ⟨"u2", idB, 5⟩ (by decide) (by decide)).1⟩

/-- C11: outside the rating routes nothing writes an aggregate or a rating
row. Store creation leaves the rating rows and the existing store rows as they
are and at most appends one store whose averageRating is null; the listings of
stores, of a store's ratings and of users, the statistics and the login leave
the whole database as it is; user creation, signup and the password change
leave the stores and the ratings as they are. -/
theorem only_rating_routes_write_aggregate (env : Env) (fails : Await → Bool) (newId : String)
    (p : Portal) (req : Req) :
    ((createStore env fails newId p req).portal.users = p.users ∧
      (createStore env fails newId p req).portal.db.ratings = p.db.ratings ∧
      ((createStore env fails newId p req).portal.db.stores = p.db.stores ∨
        ∃ s : Store, s.averageRating = none ∧
          (createStore env fails newId p req).portal.db.stores = p.db.stores ++ [s])) ∧
    (listStores env fails p req).portal = p ∧
    (listStoreRatings fails p req).portal = p ∧
    (listUsers env fails p req).portal = p ∧
    (userStats fails p req).portal = p ∧
    (login env fails p req).portal = p ∧
    (createUser env fails newId p req).portal.db = p.db ∧
    (signup env fails newId p req).portal.db = p.db ∧
    (updatePassword env fails p req).portal.db = p.db := by
  refine ⟨?_, ?_, ?_, ?_, ?_, ?_, ?_, ?_, ?_⟩
  · simp only [createStore, serverFault]
    repeat' (first | split_ifs | split)
    all_goals simp
  · simp only [listStores, serverFault]
    split_ifs <;> rfl
  · simp only [listStoreRatings, serverFault]
    repeat' (first | split_ifs | split)
    all_goals rfl
  · simp only [listUsers, serverFault]
    split_ifs <;> rfl
  · simp only [userStats, serverFault]
    split_ifs <;> rfl
  · simp only [login, serverFault]
    repeat' (first | split_ifs | split)
    all_goals rfl
  · simp only [createUser, serverFault]
    repeat' (first | split_ifs | split)
    all_goals rfl
  · simp only [signup, serverFault]
    repeat' (first | split_ifs | split)
    all_goals rfl
  · simp only [updatePassword, serverFault]
    repeat' (first | split_ifs | split)
    all_goals rfl

/-- C12: `GET /api/stores/:id/ratings` returns rating rows only for an existing
store whose ownerId is the caller; the rows are then exactly the rating rows
of that store, each with the name and e-mail of its rater; for a missing store
or another owner the reply is 403 'Access denied' without rows. -/
theorem store_ratings_owner_only (fails : Await → Bool) (p : Portal) (req : Req) :
    (∀ rows, (listStoreRatings fails p req).payload = .ratings rows →
      (∃ store, Store.findByPk p.db.stores req.id = some store ∧
        store.ownerId = req.user.id) ∧
      rows.map Prod.fst = p.db.ratings.filter (fun r => decide (r.storeId = req.id)) ∧
      ∀ e ∈ rows, e.2 = (User.findByPk p.users e.1.userId).map (fun u => (u.name, u.email))) ∧
    (fails .storeFindByPk = false →
      (∀ store, Store.findByPk p.db.stores req.id = some store →
        store.ownerId ≠ req.user.id) →
      listStoreRatings fails p req = ⟨p, 403, .message "Access denied"⟩) ∧
    (fails .storeFindByPk = false → fails .ratingFindAll = false →
      ∀ store, Store.findByPk p.db.stores req.id = some store → store.ownerId = req.user.id →
      (listStoreRatings fails p req).status = 200 ∧
        ∃ rows, (listStoreRatings fails p req).payload = .ratings rows) := by
  refine ⟨?_, ?_, ?_⟩
  · intro rows h
    simp only [listStoreRatings, serverFault] at h
    cases hF : fails .storeFindByPk
    · cases hS : Store.findByPk p.db.stores req.id with
      | none => simp [hF, hS] at h
      | some store =>
        by_cases ho : store.ownerId = req.user.id
        · cases hR : fails .ratingFindAll
          · simp only [hF, hS, ho, hR] at h
            simp at h
            subst h
            refine ⟨⟨store, rfl, ho⟩, ?_, ?_⟩
            · simp [ratingsOf, List.map_map, Function.comp_def]
            · intro e he
              simp only [List.mem_map] at he
              obtain ⟨r, _, rfl⟩ := he
              rfl
          · simp [hF, hS, ho, hR] at h
        · simp [hF, hS, ho] at h
    · simp [hF] at h
  · intro hF hno
    simp only [listStoreRatings, hF]
    cases hS : Store.findByPk p.db.stores req.id with
    | none => simp
    | some store => simp [hno store hS]
  · intro hF hR store hS ho
    simp [listStoreRatings, hF, hR, hS, ho]

/-- Witness of C12 on the sample database: the owner of store B lists its two
ratings, the rater u1 is refused. -/
theorem store_ratings_owner_only_witness :
    (listStoreRatings quiet samplePortal ⟨ownerB, idB, noFields, noFields⟩).status = 200 ∧
      listStoreRatings quiet samplePortal ⟨raterU1, idB, noFields, noFields⟩ =
        ⟨samplePortal, 403, .message "Access denied"⟩ :=
  ⟨((store_ratings_owner_only quiet samplePortal ⟨ownerB, idB, noFields, noFields⟩).2.2 rfl rfl
      storeB rfl (by decide)).1,
    (store_ratings_owner_only quiet samplePortal ⟨raterU1, idB, noFields, noFields⟩).2.1 rfl
      (by
        intro store hs
        have hb : some storeB = some store := hs
        cases hb
        decide)⟩

/-- C13: `GET /api/stores` returns every store that passes the query filters, as
stored (its averageRating included), rated by the caller or not, and attaches
to each exactly the ratings of the rows with that storeId and the caller's
userId; the database is unchanged. -/
theorem store_listing_attaches_own_rating (env : Env) (fails : Await → Bool) (p : Portal)
    (req : Req) (hq : fails .storeFindAll = false) :
    ∃ rows, listStores env fails p req = ⟨p, 200, .stores rows⟩ ∧
      rows.map Prod.fst = p.db.stores.filter (storeWhere env req.query) ∧
      (∀ e ∈ rows, e.2 = (p.db.ratings.filter
        (fun r => decide (r.storeId = e.1.id) && decide (r.userId = req.user.id))).map
          (fun r => r.rating)) ∧
      (∀ e ∈ rows, e.1 ∈ p.db.stores) ∧
      (truthy req.query.name = false → truthy req.query.address = false →
        rows.map Prod.fst = p.db.stores) := by
  refine ⟨_, by simp only [listStores, hq]; rfl, ?_, ?_, ?_, ?_⟩
  · simp [List.map_map, Function.comp_def]
  · intro e he
    simp only [List.mem_map] at he
    obtain ⟨s, _, rfl⟩ := he
    rfl
  · intro e he
    simp only [List.mem_map] at he
    obtain ⟨s, hs, rfl⟩ := he
    exact (List.mem_filter.mp hs).1
  · intro hn ha
    simp [List.map_map, Function.comp_def, storeWhere, hn, ha]

/-- Witness of C13 on the sample database: u1 sees both stores, store A without
a rating and store B with the own rating 2. -/
theorem store_listing_attaches_own_rating_witness :
    ∃ rows, listStores sampleEnv quiet samplePortal ⟨raterU1, "", noFields, noFields⟩ =
        ⟨samplePortal, 200, .stores rows⟩ ∧
      rows.map Prod.fst = samplePortal.db.stores :=
  have hw := store_listing_attaches_own_rating sampleEnv quiet samplePortal
    ⟨raterU1, "", noFields, noFields⟩ rfl
  hw.elim fun rows h => ⟨rows, h.1, h.2.2.2.2 rfl rfl⟩

/-- C17: when ownerId references no user whose role is STORE_OWNER, `POST
/api/stores` creates nothing and, the lookup not failing, replies 400, with
the message 'Invalid store owner' once the field validators have passed; a
store is created exactly when the validators pass and the owner is an existing
STORE_OWNER (and no call fails), and the created store carries that owner. -/
theorem store_creation_requires_owner (env : Env) (fails : Await → Bool) (newId : String)
    (p : Portal) (req : Req) :
    ((∀ oid owner, req.body.ownerId = some oid → User.findByPk p.users oid = some owner →
        owner.role ≠ "STORE_OWNER") →
      (createStore env fails newId p req).portal = p ∧
      (fails .userFindByPk = false → (createStore env fails newId p req).status = 400) ∧
      (fails .userFindByPk = false → (createStoreErrors env req).isEmpty = true →
        (createStore env fails newId p req).payload = .message "Invalid store owner")) ∧
    (∀ s, (createStore env fails newId p req).payload = .store s →
      (createStore env fails newId p req).status = 201 ∧
      (createStore env fails newId p req).portal.db.stores = p.db.stores ++ [s] ∧
      req.body.ownerId = some s.ownerId ∧
      ∃ owner, User.findByPk p.users s.ownerId = some owner ∧ owner.role = "STORE_OWNER") ∧
    (∀ oid owner, req.body.ownerId = some oid → User.findByPk p.users oid = some owner →
      owner.role = "STORE_OWNER" → (createStoreErrors env req).isEmpty = true →
      fails .userFindByPk = false → fails .storeCreate = false →
      (createStore env fails newId p req).status = 201 ∧
        ∃ s, (createStore env fails newId p req).payload = .store s ∧ s.ownerId = oid) := by
  have hown : (createStoreErrors env req).isEmpty = true →
      ∃ oid, req.body.ownerId = some oid := by
    intro hE
    cases ho : req.body.ownerId with
    | none => simp [createStoreErrors, validationResult, bodyIsUUID, ho] at hE
    | some oid => exact ⟨oid, rfl⟩
  refine ⟨?_, ?_, ?_⟩
  · intro hno
    have hrole : (createStoreErrors env req).isEmpty = true →
        (User.findByPk p.users (req.body.ownerId.getD "")).map (fun u => u.role) ≠
          some "STORE_OWNER" := by
      intro hE
      obtain ⟨oid, ho⟩ := hown hE
      rw [ho, Option.getD_some]
      cases hf : User.findByPk p.users oid with
      | none => simp
      | some owner => simpa using hno oid owner ho hf
    rw [createStore_eq]
    cases hE : (createStoreErrors env req).isEmpty
    · simp
    · have := hrole hE
      cases hF : fails .userFindByPk <;> simp [this, serverFault]
  · intro s hs
    rw [createStore_eq] at hs ⊢
    simp only [serverFault] at hs ⊢
    split_ifs at hs ⊢ with h1 h2 h3 h4
    · simp at hs
      subst hs
      have hE : (createStoreErrors env req).isEmpty = true := by simpa using h1
      obtain ⟨oid, ho⟩ := hown hE
      refine ⟨rfl, rfl, by simp [ho], ?_⟩
      simp only [ne_eq, not_not] at h3
      cases hf : User.findByPk p.users (req.body.ownerId.getD "") with
      | none => simp [hf] at h3
      | some owner => exact ⟨owner, rfl, by simpa [hf] using h3⟩
  · intro oid owner ho hf hr hE hF hC
    rw [createStore_eq]
    simp [hE, hF, hC, ho, hf, hr]

/-- Witness of C17 on the sample database: a store for the owner D is created,
a store for the ordinary user u1 is refused. -/
theorem store_creation_requires_owner_witness :
    (createStore sampleEnv quiet "new" samplePortal (newStoreRequest idOwner)).status = 201 ∧
      (createStore sampleEnv quiet "new" samplePortal (newStoreRequest "u1")).portal =
        samplePortal :=
  ⟨((store_creation_requires_owner sampleEnv quiet "new" samplePortal
        (newStoreRequest idOwner)).2.2 idOwner ownerD rfl rfl rfl (by decide) rfl rfl).1,
    ((store_creation_requires_owner sampleEnv quiet "new" samplePortal
        (newStoreRequest "u1")).1
      (by
        intro oid owner ho hf
        cases ho
        have hb : some raterU1 = some owner := hf
        cases hb
        decide)).1⟩

/-- C18 at the failing input: every password the server validator accepts obeys
the rule, and every password without a line terminator that obeys the rule is
accepted; but the password `aaaaaaa`, line feed, `A!` obeys the rule and passes
the client-side schema, and the server validator rejects it, its pattern
`.*` not running over the line feed. -/
theorem password_pattern_stops_at_line_break :
    (∀ s : String, validatePassword (some s) = true → PasswordRule s) ∧
    (∀ s : String, (∀ c ∈ s.toList, lineTerminator c = false) → PasswordRule s →
      validatePassword (some s) = true) ∧
    PasswordRule brokenLinePassword ∧
    clientPasswordSchema brokenLinePassword = true ∧
    validatePassword (some brokenLinePassword) = false := by
  refine ⟨?_, ?_, ?_, by decide, by decide⟩
  · intro s h
    simp only [validatePassword, isLength, matchesPasswordPattern, Option.getD_some,
      Bool.and_eq_true, decide_eq_true_eq] at h
    exact ⟨h.1.1, h.1.2, dotStarThen_exists _ _ h.2.1, dotStarThen_exists _ _ h.2.2⟩
  · intro s hl h
    simp only [validatePassword, isLength, matchesPasswordPattern, Option.getD_some,
      Bool.and_eq_true, decide_eq_true_eq]
    exact ⟨⟨h.1, h.2.1⟩, dotStarThen_of_exists _ _ hl h.2.2.1,
      dotStarThen_of_exists _ _ hl h.2.2.2⟩
  · unfold PasswordRule
    decide

/-- C19 at the failing input: with the right current password, the new
password `abc` replaces the stored one and the reply is 200, although `abc`
fails the password validator; in general the handler stores the hash of any
newPassword once the current password compares equal. -/
theorem update_password_skips_rule :
    validatePassword (some "abc") = false ∧
    updatePassword sampleEnv quiet samplePortal shortPasswordRequest =
      ⟨⟨[ownerB, ownerD, { raterU1 with password := "#abc" }], sampleDb⟩, 200,
        .message "Password updated successfully"⟩ ∧
    ∀ (env : Env) (p : Portal) (req : Req) (current new : String),
      req.body.currentPassword = some current → req.body.newPassword = some new →
      env.compare current req.user.password = true →
      updatePassword env quiet p req =
        ⟨{ p with users := User.update p.users req.user.id (env.hash new) }, 200,
          .message "Password updated successfully"⟩ := by
  refine ⟨by decide, rfl, ?_⟩
  intro env p req current new hc hn hcmp
  simp [updatePassword, hc, hn, hcmp, quiet]

/-- C21: two signup requests that agree on name, email, password and address
(and differ, say, in a body field `role`) have the same reply; the only row a
signup can add to the users is the one it builds itself, whose role is USER,
and a signup answered 201 has added it; when the email is already registered
no user is created and, the lookup not failing, the reply is 400, with the
message 'Email already registered' once the field validators have passed. -/
theorem signup_role_is_user (env : Env) (fails : Await → Bool) (newId : String) (p : Portal)
    (req1 req2 : Req) (hn : req1.body.name = req2.body.name)
    (he : req1.body.email = req2.body.email) (hp : req1.body.password = req2.body.password)
    (ha : req1.body.address = req2.body.address) :
    signup env fails newId p req1 = signup env fails newId p req2 ∧
    ((signup env fails newId p req1).portal.users = p.users ∨
      (signup env fails newId p req1).portal.users = p.users ++ [signupUser env newId req1]) ∧
    (signupUser env newId req1).role = "USER" ∧
    ((signup env fails newId p req1).status = 201 →
      (signup env fails newId p req1).portal.users = p.users ++ [signupUser env newId req1]) ∧
    (∀ e existing, req1.body.email = some e → User.findOne p.users e = some existing →
      (signup env fails newId p req1).portal = p ∧
      (fails .userFindOne = false → (signup env fails newId p req1).status = 400) ∧
      (fails .userFindOne = false → (signupErrors env req1).isEmpty = true →
        (signup env fails newId p req1).payload = .message "Email already registered")) := by
  refine ⟨?_, ?_, rfl, ?_, ?_⟩
  · obtain ⟨u1, i1, ⟨n1, e1, p1, a1, r1, o1, c1, w1⟩, q1⟩ := req1
    obtain ⟨u2, i2, ⟨n2, e2, p2, a2, r2, o2, c2, w2⟩, q2⟩ := req2
    simp only at hn he hp ha
    subst hn he hp ha
    rfl
  · rw [signup_eq]
    simp only [serverFault]
    split_ifs <;> simp
  · rw [signup_eq]
    simp only [serverFault]
    split_ifs <;> simp
  · intro e existing hem hf
    have hsome : (User.findOne p.users (req1.body.email.getD "")).isSome = true := by
      rw [hem, Option.getD_some, hf]; rfl
    rw [signup_eq]
    simp only [serverFault, hsome]
    refine ⟨?_, ?_, ?_⟩
    · split_ifs <;> rfl
    · intro hF
      simp only [hF]
      split_ifs <;> first | rfl | contradiction
    · intro hF hE
      simp [hF, hE]

/-- Witness of C21 on the sample database: a visitor who asks for the role
ADMIN gets the reply of one who asks for none, and a visitor with the e-mail
of u1 is refused. -/
theorem signup_role_is_user_witness :
    signup sampleEnv quiet "new" samplePortal (signupRequest "nora@example.org" (some "ADMIN")) =
        signup sampleEnv quiet "new" samplePortal (signupRequest "nora@example.org" none) ∧
      (signup sampleEnv quiet "new" samplePortal
        (signupRequest "nora@example.org" (some "ADMIN"))).portal.users =
        samplePortal.users ++
          [signupUser sampleEnv "new" (signupRequest "nora@example.org" (some "ADMIN"))] ∧
      (signup sampleEnv quiet "new" samplePortal
        (signupRequest "u1@example.org" (some "ADMIN"))).portal = samplePortal :=
  have hw := signup_role_is_user sampleEnv quiet "new" samplePortal
    (signupRequest "nora@example.org" (some "ADMIN")) (signupRequest "nora@example.org" none)
    rfl rfl rfl rfl
  ⟨hw.1, hw.2.2.2.1 (by decide),
    ((signup_role_is_user sampleEnv quiet "new" samplePortal
      (signupRequest "u1@example.org" (some "ADMIN"))
      (signupRequest "u1@example.org" (some "ADMIN")) rfl rfl rfl rfl).2.2.2.2
      "u1@example.org" raterU1 rfl rfl).1⟩

/-- C22: a rating request by user u on store A, on either route and whatever
its outcome, leaves every rating row not keyed (u, A) as it was and changes at
most one row: the table is unchanged, or has the row (u, A, r) appended, or
has one row keyed (u, A) replaced by (u, A, r) in place; every store row with
another id is as it was, and the id, name, email, address and ownerId of every
store row, store A included, are as they were. -/
theorem rating_request_frame (num : Numeric) (isUUID : String → Bool) (route : Route)
    (fails : Call → Bool)
    (db : Db) (req : Request) :
    (handle num isUUID route fails db req).db.ratings.filter
        (fun x => !(decide (x.userId = req.user) &&
          decide (x.storeId = targetStore route req))) =
      db.ratings.filter
        (fun x => !(decide (x.userId = req.user) &&
          decide (x.storeId = targetStore route req))) ∧
    ((handle num isUUID route fails db req).db.ratings = db.ratings ∨
      (handle num isUUID route fails db req).db.ratings =
        db.ratings ++ [⟨req.user, targetStore route req, (req.body.rating.getD 0).num⟩] ∨
      ∃ pre x post, db.ratings = pre ++ x :: post ∧ x.userId = req.user ∧
        x.storeId = targetStore route req ∧
        (handle num isUUID route fails db req).db.ratings =
          pre ++ ⟨req.user, targetStore route req, (req.body.rating.getD 0).num⟩ :: post) ∧
    (handle num isUUID route fails db req).db.stores.filter
        (fun s => decide (s.id ≠ targetStore route req)) =
      db.stores.filter (fun s => decide (s.id ≠ targetStore route req)) ∧
    (handle num isUUID route fails db req).db.stores.map
        (fun s => (s.id, s.name, s.email, s.address, s.ownerId)) =
      db.stores.map (fun s => (s.id, s.name, s.email, s.address, s.ownerId)) := by
  rcases handle_db num isUUID route fails db req with h | h
  · rw [h]
    exact ⟨rfl, Or.inl rfl, rfl, rfl⟩
  · rw [h]
    refine ⟨?_, Or.inr ?_, ?_, ?_⟩
    · exact filter_upsert_of_not _ db.ratings _ _ _ (by intro a b h1 h2; simp [h1, h2])
        (by simp)
    · exact upsert_shape db.ratings _ _ _
    · exact storeUpdate_filter_ne _ _ _
    · exact storeUpdate_map_fields _ _ _

/-- C24: after a successful rating request on an existing store, the stored
aggregate of the store is a number q, not null; q lies between any lower and
upper bound of the ratings of the store's rows, in particular between the
smallest and the largest of them; and if every rating stored before the
request is in 1..5 then 1 ≤ q ≤ 5. -/
theorem aggregate_within_rating_range (num : Numeric) (isUUID : String → Bool) (route : Route)
    (db : Db)
    (req : Request) (hok : (handle num isUUID route noFault db req).status = 200)
    (hS : (Store.findByPk db.stores (targetStore route req)).isSome) :
    ∃ q : ℚ,
      aggregateOf (handle num isUUID route noFault db req).db (targetStore route req) =
        some (some q) ∧
      (∀ lo hi : Int,
        (∀ x ∈ ratingsOf (handle num isUUID route noFault db req).db.ratings (targetStore route req),
          lo ≤ x.rating ∧ x.rating ≤ hi) → (lo : ℚ) ≤ q ∧ q ≤ (hi : ℚ)) ∧
      (∃ a ∈ ratingsOf (handle num isUUID route noFault db req).db.ratings (targetStore route req),
        ∃ b ∈ ratingsOf (handle num isUUID route noFault db req).db.ratings (targetStore route req),
          (∀ x ∈ ratingsOf (handle num isUUID route noFault db req).db.ratings
              (targetStore route req), a.rating ≤ x.rating ∧ x.rating ≤ b.rating) ∧
            (a.rating : ℚ) ≤ q ∧ q ≤ (b.rating : ℚ)) ∧
      ((∀ x ∈ db.ratings, 1 ≤ x.rating ∧ x.rating ≤ 5) → 1 ≤ q ∧ q ≤ 5) := by
  have hv := isInt_bounds _ (handle_success_valid num isUUID route db req hok).1
    (handle_success_valid num isUUID route db req hok).2
  rw [handle_success num isUUID route db req hok, aggregateOf_committed num _ _ _ _ hS]
  have hrows : ratingsOf (committed num db req.user (targetStore route req)
      (req.body.rating.getD 0).num).ratings (targetStore route req) =
      upsert (ratingsOf db.ratings (targetStore route req)) req.user (targetStore route req)
        (req.body.rating.getD 0).num := ratingsOf_upsert_same _ _ _ _
  rw [hrows]
  generalize hL : upsert (ratingsOf db.ratings (targetStore route req)) req.user
    (targetStore route req) (req.body.rating.getD 0).num = L
  have hne : L ≠ [] := by rw [← hL]; exact upsert_ne_nil _ _ _ _
  have hne2 : L.map (fun x => x.rating) ≠ [] := by simpa using hne
  have havg : ∀ R : List Int, R ≠ [] →
      AVG num R = some (num.round (((R.sum : Int) : ℚ) / ((R.length : Nat) : ℚ))) := by
    intro R hR
    cases R with
    | nil => exact absurd rfl hR
    | cons y ys => rfl
  have hbound : ∀ lo hi : Int, (∀ x ∈ L, lo ≤ x.rating ∧ x.rating ≤ hi) →
      (lo : ℚ) ≤ num.round ((((L.map (fun x => x.rating)).sum : Int) : ℚ) /
          (((L.map (fun x => x.rating)).length : Nat) : ℚ)) ∧
        num.round ((((L.map (fun x => x.rating)).sum : Int) : ℚ) /
          (((L.map (fun x => x.rating)).length : Nat) : ℚ)) ≤ (hi : ℚ) := by
    intro lo hi h
    apply round_bounds
    apply mean_bounds _ hne2
    intro y hy
    obtain ⟨x, hx, rfl⟩ := List.mem_map.mp hy
    exact h x hx
  refine ⟨_, by rw [havg _ hne2], hbound, ?_, ?_⟩
  · obtain ⟨a, ha, b, hb, hab⟩ := exists_min_max L hne
    exact ⟨a, ha, b, hb, hab, hbound a.rating b.rating hab⟩
  · intro hall
    have := hbound 1 5 (by
      intro x hx
      rw [← hL] at hx
      rcases mem_upsert _ _ _ _ x hx with h | h
      · exact hall x (List.mem_of_mem_filter h)
      · rw [h]; exact hv)
    simpa using this

/-- Witness of C24 on the sample database: u1 rates store A 4, the aggregate of
store A is 4. -/
theorem aggregate_within_rating_range_witness :
    ∃ q : ℚ,
      aggregateOf (handle decimal16 uuidShape .post noFault sampleDb (ratingRequest "u1" idA 4)).db idA =
        some (some q) ∧ 1 ≤ q ∧ q ≤ 5 :=
  (aggregate_within_rating_range decimal16 uuidShape .post sampleDb (ratingRequest "u1" idA 4)
    (by rw [handle, postRating_ok decimal16 uuidShape sampleDb "u1" idA 4 (by decide) (by decide)
      (by decide)])
    (by decide)).elim fun q h => ⟨q, h.1, h.2.2.2 (by
      intro x hx
      simp only [sampleDb, List.mem_cons, List.mem_singleton, List.not_mem_nil, or_false] at hx
      rcases hx with rfl | rfl <;> decide)⟩

/-- C23, as stated, fails in its last part: after three distinct users have rated
store A, which had no ratings, 1, 1 and 2, the store carries the sixteen-digit
decimal 1.3333333333333333 of the AVG query, not the mean 4/3 of the resulting
rows. -/
theorem submissions_mean_not_exact :
    (ratingsOf (run decimal16 uuidShape sampleDb
        (posts idA [("u1", 1), ("u2", 1), ("u3", 2)])).ratings idA).map (fun x => x.rating) =
      [1, 1, 2] ∧
      aggregateOf (run decimal16 uuidShape sampleDb
          (posts idA [("u1", 1), ("u2", 1), ("u3", 2)])) idA =
        some (some (13333333333333333 / 10000000000000000)) ∧
      ¬ (aggregateOf (run decimal16 uuidShape sampleDb
          (posts idA [("u1", 1), ("u2", 1), ("u3", 2)])) idA =
        some (arithmeticMean ((ratingsOf (run decimal16 uuidShape sampleDb
          (posts idA [("u1", 1), ("u2", 1), ("u3", 2)])).ratings idA).map
            (fun x => x.rating)))) := by
  have hrun := (run_posts decimal16 uuidShape idA (by decide) [("u1", 1), ("u2", 1), ("u3", 2)]
    sampleDb (by decide) (by decide)).1
  have hrows : (ratingsOf ([("u1", 1), ("u2", 1), ("u3", 2)].foldl
      (fun d x => committed decimal16 d x.1 idA x.2) sampleDb).ratings idA).map
        (fun x => x.rating) = [1, 1, 2] := by decide
  have hagg := aggregateOf_foldl_committed decimal16 idA [("u1", 1), ("u2", 1), ("u3", 2)]
    (by decide) sampleDb (by decide)
  rw [hrows] at hagg
  have hval : (arithmeticMean [1, 1, 2]).map decimal16.round =
      some (13333333333333333 / 10000000000000000) := by
    simp only [arithmeticMean, List.length_cons, List.length_nil, List.sum_cons, List.sum_nil,
      Option.map]
    rw [if_neg (by decide)]
    simp only [Option.some.injEq]
    rw [decimal16_round_of_floor _ 13333333333333333 (by norm_num) (by norm_num)
      (by norm_num)]
    norm_num
  rw [hval] at hagg
  rw [hrun]
  refine ⟨hrows, hagg, ?_⟩
  rw [hagg, hrows]
  simp only [arithmeticMean, Option.some.injEq]
  norm_num

/-- C23, amended: for an existing store S and a sequence of submissions to the
create route by pairwise distinct users with ratings in 1..5, every reordering
of the sequence, served from the same database, ends with the same store rows
(so the same averageRating of S) and the same rating rows up to their order in
the table; and after a non-empty sequence the aggregate of S is the mean of
the resulting rows of S as the database represents it. The two submissions
(u1, r1), (u2, r2) in either order are the case of a sequence of length two. -/
theorem submissions_commute (num : Numeric) (isUUID : String → Bool) (db : Db) (S : String)
    (subs subs2 : List (String × Int)) (hS : (Store.findByPk db.stores S).isSome)
    (hU : isUUID S = true) (hr : ∀ x ∈ subs, 1 ≤ x.2 ∧ x.2 ≤ 5)
    (hnd : (subs.map Prod.fst).Nodup) (hp : List.Perm subs subs2) :
    (run num isUUID db (posts S subs)).stores = (run num isUUID db (posts S subs2)).stores ∧
    List.Perm (run num isUUID db (posts S subs)).ratings (run num isUUID db (posts S subs2)).ratings ∧
    (subs ≠ [] →
      aggregateOf (run num isUUID db (posts S subs)) S =
        some ((arithmeticMean ((ratingsOf (run num isUUID db (posts S subs)).ratings S).map
          (fun x => x.rating))).map num.round)) := by
  have hr2 : ∀ x ∈ subs2, 1 ≤ x.2 ∧ x.2 ≤ 5 := fun x hx => hr x (hp.mem_iff.mpr hx)
  rw [(run_posts num isUUID S hU subs db hS hr).1, (run_posts num isUUID S hU subs2 db hS hr2).1]
  have h := foldl_committed_perm num S hp hnd db db (sameRecords_refl db)
  exact ⟨h.1, h.2.1, fun hne => aggregateOf_foldl_committed num S subs hne db hS⟩

/-- Witness of C23 amended on the sample database: u3 rating store B 1 and u4 rating
it 4, in either order. -/
theorem submissions_commute_witness :
    (run decimal16 uuidShape sampleDb (posts idB [("u3", 1), ("u4", 4)])).stores =
        (run decimal16 uuidShape sampleDb (posts idB [("u4", 4), ("u3", 1)])).stores ∧
      List.Perm (run decimal16 uuidShape sampleDb (posts idB [("u3", 1), ("u4", 4)])).ratings
        (run decimal16 uuidShape sampleDb (posts idB [("u4", 4), ("u3", 1)])).ratings :=
  have hw := submissions_commute decimal16 uuidShape sampleDb idB [("u3", 1), ("u4", 4)]
    [("u4", 4), ("u3", 1)] (by decide) (by decide) (by decide) (by decide)
    (List.Perm.swap _ _ _)
  ⟨hw.1, hw.2.1⟩

end StoreRating
